import Mathlib

/-!
Verification development for the llm-notebook content ingestion and analysis
pipeline (FastAPI service under `apps/api/app`).

The Python source is shallowly embedded:
* Python `str` values are modeled as `PStr := List Nat`, a list of Unicode
  code points (`pstr` converts a Lean string literal).  Python's `len`,
  slicing, `strip`, `lower`, … are translated to the corresponding list
  functions; percent-encoding works through an explicit UTF-8 byte
  encoding, as in CPython's `urllib.parse.quote`/`unquote`.
* fallible code returns `Except`/`Option`; `datetime` values are civil
  UTC timestamps; settings values (retry counts, limits, …) are explicit
  parameters.

Each definition carries the name of the Python function it translates.
-/

/-- Python `str` modeled as a list of Unicode code points. -/
abbrev PStr := List Nat

/-- Conversion from a Lean string literal to the code-point model. -/
def pstr (s : String) : PStr := s.data.map Char.toNat

/-- Python `str.strip()` whitespace set (ASCII whitespace plus the common
Unicode members NEL and NBSP; `str.strip` strips Unicode whitespace). -/
def isPySpace (c : Nat) : Bool :=
  c = 32 || c = 9 || c = 10 || c = 11 || c = 12 || c = 13 ||
  c = 28 || c = 29 || c = 30 || c = 31 || c = 133 || c = 160

/-- Python `s.lstrip()` (no argument form). -/
def pyLstrip (s : PStr) : PStr := s.dropWhile isPySpace

/-- Python `s.rstrip()` (no argument form). -/
def pyRstrip (s : PStr) : PStr := (s.reverse.dropWhile isPySpace).reverse

/-- Python `s.strip()` (no argument form). -/
def pyStrip (s : PStr) : PStr := pyRstrip (pyLstrip s)

/-- Python `s.strip(chars)` for an explicit character set. -/
def pyStripChars (cs : List Nat) (s : PStr) : PStr :=
  ((s.dropWhile (cs.contains ·)).reverse.dropWhile (cs.contains ·)).reverse

/-- Python `s.lstrip(chars)` for an explicit character set. -/
def pyLstripChars (cs : List Nat) (s : PStr) : PStr :=
  s.dropWhile (cs.contains ·)

/-- ASCII lower-casing of one code point (`str.lower` restricted to ASCII;
the hosts and keys the services lower-case are ASCII). -/
def lowerChar (c : Nat) : Nat :=
  if 65 ≤ c ∧ c ≤ 90 then c + 32 else c

/-- Python `str.lower()` (ASCII fragment). -/
def pyLower (s : PStr) : PStr := s.map lowerChar

/-- ASCII digit test. -/
def isDigitChar (c : Nat) : Bool := 48 ≤ c && c ≤ 57

/-- ASCII letter test. -/
def isAlphaChar (c : Nat) : Bool := (65 ≤ c && c ≤ 90) || (97 ≤ c && c ≤ 122)

/-- Numeric value of a string of ASCII digits (`int(s, 10)` on digits). -/
def digitsVal (s : PStr) : Nat := s.foldl (fun acc c => acc * 10 + (c - 48)) 0

/-- Split a list at the first occurrence of `c`: returns the part before and,
when `c` occurs, the part after it (Python `s.split(c, 1)` / `partition`). -/
def splitOnFirst (c : Nat) (s : PStr) : PStr × Option PStr :=
  match s with
  | [] => ([], none)
  | x :: rest =>
    if x = c then ([], some rest)
    else
      let r := splitOnFirst c rest
      (x :: r.1, r.2)

/-- Split a list at every occurrence of `c` (Python `s.split(c)`). -/
def splitAll (c : Nat) (s : PStr) : List PStr :=
  match s with
  | [] => [[]]
  | x :: rest =>
    if x = c then [] :: splitAll c rest
    else
      match splitAll c rest with
      | [] => [[x]]
      | p :: ps => (x :: p) :: ps

/-! ## §4.6 key-point extraction (`AggregationService._extract_key_points`) -/

/-- The sentence separators of `re.split(r"[。！？.!?]", content)`. -/
def isSentenceSep (c : Nat) : Bool :=
  c = 0x3002 || c = 0xFF01 || c = 0xFF1F || c = 46 || c = 33 || c = 63

/-- `re.split(r"[。！？.!?]", content)`: split at every separator character,
keeping empty pieces. -/
def splitSentences (s : PStr) : List PStr :=
  match s with
  | [] => [[]]
  | c :: rest =>
    if isSentenceSep c then [] :: splitSentences rest
    else
      match splitSentences rest with
      | [] => [[c]]
      | p :: ps => (c :: p) :: ps

/-- `MAX_KEY_POINTS` in `aggregation_service.py`. -/
def MAX_KEY_POINTS : Nat := 3

/-- The boilerplate sentence appended by `_extract_key_points`. -/
def KEY_POINT_BOILERPLATE : PStr := pstr "建议结合原文阅读全文，避免断章取义。"

/-- The `for piece in re.split(...)` loop of `_extract_key_points`:
strip each piece, skip pieces shorter than 12 characters, append the
96-character cap, and break once `MAX_KEY_POINTS` are collected. -/
def keyPointsLoop (pieces : List PStr) (acc : List PStr) : List PStr :=
  match pieces with
  | [] => acc
  | p :: rest =>
    let line := pyStrip p
    if line.length < 12 then keyPointsLoop rest acc
    else
      let acc' := acc ++ [line.take 96]
      if MAX_KEY_POINTS ≤ acc'.length then acc' else keyPointsLoop rest acc'

/-- `AggregationService._extract_key_points(content=..., summary_text=...)`. -/
def extract_key_points (content summary_text : PStr) : List PStr :=
  let kp := keyPointsLoop (splitSentences content) []
  let kp := if kp = [] then [summary_text.take 96] else kp
  let kp := kp ++ List.replicate (MAX_KEY_POINTS - kp.length) KEY_POINT_BOILERPLATE
  kp.take MAX_KEY_POINTS

/-- The qualifying sentence fragments of the content, as described in the
claim: split on sentence punctuation, strip, keep fragments of length at
least 12, cap each at 96 characters. -/
def qualifyingFragments (content : PStr) : List PStr :=
  (((splitSentences content).map pyStrip).filter (fun l => 12 ≤ l.length)).map
    (List.take 96)

/-! ## §4.2 published-date parsing (`app/core/published_at.py`) -/

/-- A civil UTC timestamp (Python `datetime` normalized to UTC, second
granularity). -/
structure PDateTime where
  year : Nat
  month : Nat
  day : Nat
  hour : Nat
  minute : Nat
  second : Nat
deriving Repr, DecidableEq

def isLeapYear (y : Nat) : Bool := (y % 4 = 0 && y % 100 ≠ 0) || y % 400 = 0

def daysInMonth (y m : Nat) : Nat :=
  if m = 1 then 31 else if m = 2 then (if isLeapYear y then 29 else 28)
  else if m = 3 then 31 else if m = 4 then 30 else if m = 5 then 31
  else if m = 6 then 30 else if m = 7 then 31 else if m = 8 then 31
  else if m = 9 then 30 else if m = 10 then 31 else if m = 11 then 30 else 31

/-- Days of year `y` that precede month `m`. -/
def daysBeforeMonth (y m : Nat) : Nat :=
  (List.range (m - 1)).foldl (fun acc i => acc + daysInMonth y (i + 1)) 0

/-- Proleptic-Gregorian ordinal of a civil date (day 1 = 0001-01-01). -/
def ordinalOf (y m d : Nat) : Nat :=
  365 * (y - 1) + (y - 1) / 4 - (y - 1) / 100 + (y - 1) / 400 +
    daysBeforeMonth y m + d

/-- Seconds since the Unix epoch of a civil UTC datetime. -/
def epochFromCivil (y mo d hh mi ss : Nat) : Int :=
  ((ordinalOf y mo d : Int) - (ordinalOf 1970 1 1 : Int)) * 86400 +
    (hh * 3600 + mi * 60 + ss : Nat)

def epochOf (dt : PDateTime) : Int :=
  epochFromCivil dt.year dt.month dt.day dt.hour dt.minute dt.second

/-- Civil date from days since the Unix epoch (standard era-based
algorithm, as used for `datetime` arithmetic). -/
def civilFromDays (z0 : Int) : Nat × Nat × Nat :=
  let z : Int := z0 + 719468
  let era : Int := Int.fdiv z 146097
  let doe : Nat := (z - era * 146097).toNat
  let yoe : Nat := (doe - doe / 1460 + doe / 36524 - doe / 146096) / 365
  let doy : Nat := doe - (365 * yoe + yoe / 4 - yoe / 100)
  let mp : Nat := (5 * doy + 2) / 153
  let d : Nat := doy - (153 * mp + 2) / 5 + 1
  let m : Nat := if mp < 10 then mp + 3 else mp - 9
  let y : Int := (yoe : Int) + era * 400 + (if m ≤ 2 then 1 else 0)
  (y.toNat, m, d)

def pdtFromEpoch (secs : Int) : PDateTime :=
  let days := Int.fdiv secs 86400
  let rem := (secs - days * 86400).toNat
  let c := civilFromDays days
  ⟨c.1, c.2.1, c.2.2, rem / 3600, rem % 3600 / 60, rem % 60⟩

/-- `dt.astimezone(timezone.utc)` for a parsed civil datetime carrying a
UTC-offset of `offMin` minutes (naive datetimes use offset 0, matching
`dt.replace(tzinfo=timezone.utc)`). -/
def utcOfParts (y mo d hh mi ss : Nat) (offMin : Int) : PDateTime :=
  if offMin = 0 then ⟨y, mo, d, hh, mi, ss⟩
  else pdtFromEpoch (epochFromCivil y mo d hh mi ss - offMin * 60)

/-- `datetime` constructor range validation (raises `ValueError` outside). -/
def validDate (y mo d : Nat) : Bool :=
  1 ≤ y && y ≤ 9999 && 1 ≤ mo && mo ≤ 12 && 1 ≤ d && d ≤ daysInMonth y mo

def validTime (hh mi ss : Nat) : Bool := hh ≤ 23 && mi ≤ 59 && ss ≤ 59

/-- Exactly-`n`-digit number at the head of the string. -/
def parseNatFixed (n : Nat) (s : PStr) : Option (Nat × PStr) :=
  let ds := s.take n
  if ds.length = n ∧ ds.all isDigitChar then some (digitsVal ds, s.drop n)
  else none

/-- One- or two-digit number at the head of the string (`strptime` `%m`,
`%d`, `%H`, `%M` accept an optional leading zero). -/
def parseNat12 (s : PStr) : Option (Nat × PStr) :=
  match s with
  | a :: b :: rest =>
    if isDigitChar a ∧ isDigitChar b then some (digitsVal [a, b], rest)
    else if isDigitChar a then some (digitsVal [a], b :: rest)
    else none
  | [a] => if isDigitChar a then some (digitsVal [a], []) else none
  | [] => none

def expectChar (c : Nat) (s : PStr) : Option PStr :=
  match s with
  | x :: rest => if x = c then some rest else none
  | [] => none

/-- `value.replace("Z", "+00:00")` from `_parse_datetime_value`. -/
def replaceZ (s : PStr) : PStr :=
  s.flatMap (fun c => if c = 90 then pstr "+00:00" else [c])

/-- Optional fractional-seconds part `.ffffff` / `,ffffff` (value ignored at
second granularity). -/
def skipFraction (s : PStr) : PStr :=
  match s with
  | c :: rest =>
    if (c = 46 ∨ c = 44) ∧ (rest.takeWhile isDigitChar).length ≥ 1 then
      rest.dropWhile isDigitChar
    else s
  | [] => s

/-- UTC-offset suffix `±HH[:MM]` or `±HHMM` (`datetime.fromisoformat`
time-zone designator). Returns the offset in minutes. -/
def parseIsoOffset (s : PStr) : Option Int :=
  match s with
  | sign :: rest =>
    if sign ≠ 43 ∧ sign ≠ 45 then none
    else
      match parseNatFixed 2 rest with
      | none => none
      | some (hh, rest1) =>
        let mm? : Option (Nat × PStr) :=
          match rest1 with
          | 58 :: r2 => parseNatFixed 2 r2
          | _ :: _ => parseNatFixed 2 rest1
          | [] => some (0, [])
        match mm? with
        | none => none
        | some (mm, rest2) =>
          if rest2 ≠ [] then none
          else if hh > 23 ∨ mm > 59 then none
          else
            let off : Int := (hh * 60 + mm : Nat)
            some (if sign = 45 then -off else off)
  | [] => none

/-- `datetime.fromisoformat` (extended-format subset:
`YYYY-MM-DD[{T, }HH:MM[:SS[.ffffff]][±HH[:MM]]]`). -/
def parseIsoDatetime (s : PStr) : Option PDateTime := do
  let (y, s1) ← parseNatFixed 4 s
  let s2 ← expectChar 45 s1
  let (mo, s3) ← parseNatFixed 2 s2
  let s4 ← expectChar 45 s3
  let (d, s5) ← parseNatFixed 2 s4
  if !validDate y mo d then none
  else
    match s5 with
    | [] => some ⟨y, mo, d, 0, 0, 0⟩
    | sep :: s6 =>
      if sep ≠ 84 ∧ sep ≠ 116 ∧ sep ≠ 32 then none
      else do
        let (hh, s7) ← parseNatFixed 2 s6
        let s8 ← expectChar 58 s7
        let (mi, s9) ← parseNatFixed 2 s8
        let (ss, s10) ←
          match s9 with
          | 58 :: r =>
            match parseNatFixed 2 r with
            | some (ss, r2) => some (ss, skipFraction r2)
            | none => none
          | _ => some (0, s9)
        if !validTime hh mi ss then none
        else
          match s10 with
          | [] => some ⟨y, mo, d, hh, mi, ss⟩
          | _ => do
            let off ← parseIsoOffset s10
            some (utcOfParts y mo d hh mi ss off)

/-- One `strptime` date pattern `%Y<sep>%m<sep>%d` with an optional
`<space>%H:%M` tail (the patterns tried by `_parse_datetime_value`). -/
def parsePatternDate (sep : Nat) (withTime : Bool) (s : PStr) : Option PDateTime := do
  let (y, s1) ← parseNatFixed 4 s
  let s2 ← expectChar sep s1
  let (mo, s3) ← parseNat12 s2
  let s4 ← expectChar sep s3
  let (d, s5) ← parseNat12 s4
  if !validDate y mo d then none
  else if withTime then do
    let s6 ← expectChar 32 s5
    let (hh, s7) ← parseNat12 s6
    let s8 ← expectChar 58 s7
    let (mi, s9) ← parseNat12 s8
    if s9 ≠ [] then none
    else if !validTime hh mi 0 then none
    else some ⟨y, mo, d, hh, mi, 0⟩
  else
    if s5 ≠ [] then none else some ⟨y, mo, d, 0, 0, 0⟩

/-- The `for pattern in (...)` fallback loop of `_parse_datetime_value`:
`%Y-%m-%d`, `%Y/%m/%d`, `%Y.%m.%d`, `%Y-%m-%d %H:%M`, `%Y/%m/%d %H:%M`. -/
def parsePatterns (s : PStr) : Option PDateTime :=
  match parsePatternDate 45 false s with
  | some dt => some dt
  | none =>
    match parsePatternDate 47 false s with
    | some dt => some dt
    | none =>
      match parsePatternDate 46 false s with
      | some dt => some dt
      | none =>
        match parsePatternDate 45 true s with
        | some dt => some dt
        | none => parsePatternDate 47 true s

/-- Split on runs of whitespace, dropping empty tokens (Python `s.split()`). -/
def splitWhitespace (s : PStr) : List PStr :=
  match s with
  | [] => []
  | c :: rest =>
    if isPySpace c then splitWhitespace rest
    else
      match splitWhitespace rest with
      | [] => [[c]]
      | p :: ps =>
        match rest with
        | r :: _ =>
          if isPySpace r then [c] :: p :: ps else (c :: p) :: ps
        | [] => [[c]]

/-- English month names of `email.utils` RFC-822 parsing. -/
def monthNum (t : PStr) : Option Nat :=
  let l := pyLower t
  if l = pstr "jan" then some 1 else if l = pstr "feb" then some 2
  else if l = pstr "mar" then some 3 else if l = pstr "apr" then some 4
  else if l = pstr "may" then some 5 else if l = pstr "jun" then some 6
  else if l = pstr "jul" then some 7 else if l = pstr "aug" then some 8
  else if l = pstr "sep" then some 9 else if l = pstr "oct" then some 10
  else if l = pstr "nov" then some 11 else if l = pstr "dec" then some 12
  else none

def isDayName (t : PStr) : Bool :=
  let l := pyLower t
  l = pstr "mon" || l = pstr "tue" || l = pstr "wed" || l = pstr "thu" ||
  l = pstr "fri" || l = pstr "sat" || l = pstr "sun"

/-- Obsolete zone names of `email.utils._timezones`, in minutes. -/
def rfcZoneOffset (t : PStr) : Option Int :=
  let l := pyLower t
  if l = pstr "ut" ∨ l = pstr "utc" ∨ l = pstr "gmt" ∨ l = pstr "z" then some 0
  else if l = pstr "ast" ∨ l = pstr "edt" then some (-240)
  else if l = pstr "est" ∨ l = pstr "cdt" then some (-300)
  else if l = pstr "cst" ∨ l = pstr "mdt" then some (-360)
  else if l = pstr "mst" ∨ l = pstr "pdt" then some (-420)
  else if l = pstr "pst" then some (-480)
  else none

/-- A numeric RFC-822 zone `±HHMM`, in minutes. -/
def rfcNumericZone (t : PStr) : Option Int :=
  match t with
  | sign :: ds =>
    if (sign = 43 ∨ sign = 45) ∧ ds.length = 4 ∧ ds.all isDigitChar then
      let hh := digitsVal (ds.take 2)
      let mm := digitsVal (ds.drop 2)
      let off : Int := (hh * 60 + mm : Nat)
      some (if sign = 45 then -off else off)
    else none
  | [] => none

/-- RFC-822 time token `HH:MM[:SS]`. -/
def rfcTime (t : PStr) : Option (Nat × Nat × Nat) := do
  let (hh, r1) ← parseNat12 t
  let r2 ← expectChar 58 r1
  let (mi, r3) ← parseNat12 r2
  match r3 with
  | [] => some (hh, mi, 0)
  | 58 :: r4 => do
    let (ss, r5) ← parseNat12 r4
    if r5 = [] then some (hh, mi, ss) else none
  | _ => none

/-- Two-digit-year widening of `email.utils.parsedate_tz`. -/
def rfcWidenYear (y : Nat) : Nat :=
  if y < 69 then y + 2000 else if y < 100 then y + 1900 else y

/-- `email.utils.parsedate_to_datetime` (standard RFC-822 shapes
`[Day,] DD Mon YYYY HH:MM[:SS] [zone]`; fails on anything else, like the
`try/except` around it in `_parse_datetime_value`). -/
def parseRfc822 (s : PStr) : Option PDateTime :=
  let toks := splitWhitespace s
  let toks :=
    match toks with
    | t :: rest =>
      if isDayName (pyStripChars [44] t) ∧ (t.getLast? = some 44 ∨ isDayName t)
      then rest else t :: rest
    | [] => []
  match toks with
  | dayT :: monT :: yearT :: timeT :: rest => do
    if !(dayT.all isDigitChar ∧ 1 ≤ dayT.length ∧ dayT.length ≤ 2) then none
    else do
      let mo ← monthNum monT
      if !(yearT.all isDigitChar ∧ 1 ≤ yearT.length ∧ yearT.length ≤ 4) then none
      else do
        let y := rfcWidenYear (digitsVal yearT)
        let (hh, mi, ss) ← rfcTime timeT
        let off ←
          match rest with
          | [] => some 0
          | [z] =>
            match rfcNumericZone z with
            | some o => some o
            | none => rfcZoneOffset z
          | _ => none
        let d := digitsVal dayT
        if !(validDate y mo d ∧ validTime hh mi ss) then none
        else some (utcOfParts y mo d hh mi ss off)
  | _ => none

/-- `_parse_datetime_value(value)`: RFC-822 first, then ISO-8601 with `Z`
replaced by `+00:00`, then the explicit `strptime` patterns. -/
def parseDatetimeValue (s : PStr) : Option PDateTime :=
  match parseRfc822 s with
  | some dt => some dt
  | none =>
    match parseIsoDatetime (replaceZ s) with
    | some dt => some dt
    | none => parsePatterns s

/-- `html.unescape` (named-entity subset used by the date parser). -/
def htmlUnescape (s : PStr) : PStr :=
  match s with
  | 38 :: 97 :: 109 :: 112 :: 59 :: rest => 38 :: htmlUnescape rest
  | 38 :: 108 :: 116 :: 59 :: rest => 60 :: htmlUnescape rest
  | 38 :: 103 :: 116 :: 59 :: rest => 62 :: htmlUnescape rest
  | 38 :: 113 :: 117 :: 111 :: 116 :: 59 :: rest => 34 :: htmlUnescape rest
  | 38 :: 97 :: 112 :: 111 :: 115 :: 59 :: rest => 39 :: htmlUnescape rest
  | c :: rest => c :: htmlUnescape rest
  | [] => []

/-- The preprocessing of `parse_datetime`: `html.unescape(value).strip()`. -/
def parseDatetimePre (v : PStr) : PStr := pyStrip (htmlUnescape v)

/-- `app.core.published_at.parse_datetime(value)`, with the current UTC
time `now` (`datetime.now(timezone.utc)`) passed explicitly. -/
def parse_datetime (now : PDateTime) (value : Option PStr) : Option PDateTime :=
  match value with
  | none => none
  | some v =>
    let raw := parseDatetimePre v
    if raw = [] then none
    else
      match parseDatetimeValue raw with
      | none => none
      | some parsed =>
        if parsed.year < 1970 ∨ epochOf parsed > epochOf now + 370 * 86400 then
          none
        else some parsed

/-! ## §4.5 LLM client (`app/infra/llm_client.py`) -/

/-- `LLMClientError(code=..., message=...)`. -/
structure LLMClientError where
  code : String
  message : PStr
deriving Repr, DecidableEq

/-- `TRANSIENT_HTTP_STATUS = {429, 500, 502, 503, 504}`. -/
def TRANSIENT_HTTP_STATUS : List Nat := [429, 500, 502, 503, 504]

/-- What one `urlopen` attempt of `_request_with_retry` can do, as raised by
the `try` body: a parsed JSON response, `urllib.error.HTTPError`,
`urllib.error.URLError`, `TimeoutError`, or `json.JSONDecodeError`. -/
inductive AttemptOutcome (α : Type) where
  | success (data : α)
  | httpError (code : Nat)
  | urlError
  | timeoutError
  | jsonDecodeError
deriving Repr, DecidableEq

/-- An attempt outcome on which the loop retries (after a backoff sleep)
when budget remains. -/
def AttemptOutcome.retriable : AttemptOutcome α → Bool
  | .httpError c => TRANSIENT_HTTP_STATUS.contains c
  | .urlError => true
  | .timeoutError => true
  | _ => false

/-- `LLMClient._backoff(attempt)`: `time.sleep(min(8, 2 ** max(0, attempt - 1)))`,
returned as the slept duration in seconds. -/
def backoffSeconds (attempt : Nat) : Nat := min 8 (2 ^ (attempt - 1))

/-- Observable result of `_request_with_retry`: the returned data or raised
`LLMClientError`, the number of attempts actually made, and the backoff
sleeps performed between attempts. -/
structure RetryRun (α : Type) where
  result : Except LLMClientError α
  attemptsUsed : Nat
  sleeps : List Nat
deriving Repr

/-- The `for attempt in range(1, retries + 1)` loop body of
`_request_with_retry`, with the network modeled as a map from attempt
number to outcome. -/
def requestLoop (outcomes : Nat → AttemptOutcome α) (retries attempt : Nat) :
    RetryRun α :=
  if attempt > retries then
    ⟨.error ⟨"llm_request_failed", pstr "模型服务请求失败"⟩, attempt - 1, []⟩
  else
    match outcomes attempt with
    | .success d => ⟨.ok d, attempt, []⟩
    | .httpError c =>
      if TRANSIENT_HTTP_STATUS.contains c ∧ attempt < retries then
        let r := requestLoop outcomes retries (attempt + 1)
        ⟨r.result, r.attemptsUsed, backoffSeconds attempt :: r.sleeps⟩
      else ⟨.error ⟨"llm_http_error", pstr "模型服务请求失败"⟩, attempt, []⟩
    | .urlError =>
      if attempt < retries then
        let r := requestLoop outcomes retries (attempt + 1)
        ⟨r.result, r.attemptsUsed, backoffSeconds attempt :: r.sleeps⟩
      else ⟨.error ⟨"llm_network_error", pstr "模型服务网络异常，请稍后重试"⟩, attempt, []⟩
    | .timeoutError =>
      if attempt < retries then
        let r := requestLoop outcomes retries (attempt + 1)
        ⟨r.result, r.attemptsUsed, backoffSeconds attempt :: r.sleeps⟩
      else ⟨.error ⟨"llm_timeout", pstr "模型服务请求超时，请稍后重试"⟩, attempt, []⟩
    | .jsonDecodeError =>
      ⟨.error ⟨"llm_invalid_response", pstr "模型服务响应解析失败"⟩, attempt, []⟩
termination_by retries + 1 - attempt

/-- `LLMClient._request_with_retry`: `retries = max(1, settings.llm_max_retries)`,
then the attempt loop starting at attempt 1. -/
def request_with_retry (llmMaxRetries : Nat) (outcomes : Nat → AttemptOutcome α) :
    RetryRun α :=
  requestLoop outcomes (max 1 llmMaxRetries) 1

/-- The result `_request_with_retry` produces when the loop stops at an
attempt with the given outcome on its final attempt. -/
def finalOutcomeResult (out : AttemptOutcome α) (res : Except LLMClientError α) :
    Prop :=
  match out with
  | .success d => res = .ok d
  | .httpError _ => ∃ e, res = .error e ∧ e.code = "llm_http_error"
  | .urlError => ∃ e, res = .error e ∧ e.code = "llm_network_error"
  | .timeoutError => ∃ e, res = .error e ∧ e.code = "llm_timeout"
  | .jsonDecodeError => ∃ e, res = .error e ∧ e.code = "llm_invalid_response"

/-! ## §4.7 tag utilities (`app/core/tag_utils.py`) -/

/-- `TAG_PATTERN_RE = ^[a-z0-9_\-㐀-䶿一-鿿]+$` (one char). -/
def isTagChar (c : Nat) : Bool :=
  isDigitChar c || (97 ≤ c && c ≤ 122) || c = 95 || c = 45 ||
  (0x3400 ≤ c && c ≤ 0x4DBF) || (0x4E00 ≤ c && c ≤ 0x9FFF)

/-- An element of a JSON array, to the depth the client inspects it: the
code only ever asks whether an element is a string (`isinstance(raw, str)`);
other elements carry just their truthiness. -/
inductive JItem where
  | istr (s : PStr)
  | iother (truthy : Bool)
deriving Repr, DecidableEq

/-- JSON values as seen by the client after `json.loads` (`Any`). -/
inductive JVal where
  | jnull
  | jbool (b : Bool)
  | jnum (n : Int)
  | jstr (s : PStr)
  | jlist (xs : List JItem)
deriving Repr, DecidableEq

/-- Python truthiness of a JSON value. -/
def JVal.truthy : JVal → Bool
  | .jnull => false
  | .jbool b => b
  | .jnum n => n != 0
  | .jstr s => !s.isEmpty
  | .jlist xs => !xs.isEmpty

/-- `normalize_hashtag(raw)` (argument is `Any` coming from JSON: non-string
values fail the `isinstance(raw, str)` test). -/
def normalize_hashtag (raw : JItem) : Option PStr :=
  match raw with
  | .istr s =>
    let value := pyStrip s
    if value = [] then none
    else
      let value := pyLower (pyStrip (pyLstripChars [35] value))
      if value = [] then none
      else if value.all isTagChar then some value
      else none
  | _ => none

/-- The loop of `normalize_hashtag_list`: dedup, keep first-seen order,
break at `max_count`. -/
def hashtagLoop (values : List JItem) (maxCount : Nat) (seen acc : List PStr) :
    List PStr :=
  match values with
  | [] => acc
  | raw :: rest =>
    match normalize_hashtag raw with
    | none => hashtagLoop rest maxCount seen acc
    | some tag =>
      if seen.contains tag then hashtagLoop rest maxCount seen acc
      else
        let acc' := acc ++ [tag]
        if maxCount ≤ acc'.length then acc'
        else hashtagLoop rest maxCount (seen ++ [tag]) acc'

/-- `normalize_hashtag_list(values, max_count=...)`. -/
def normalize_hashtag_list (values : List JItem) (maxCount : Nat) : List PStr :=
  if values = [] then [] else hashtagLoop values maxCount [] []

/-- `pick_localized_tags(...)` (`app/core/tag_utils.py`). -/
def pick_localized_tags (preferZh : Bool) (sourceLanguage : Option String)
    (originalTags zhTags : List JItem) (maxCount : Nat) : List PStr :=
  let original := normalize_hashtag_list originalTags maxCount
  let zh := normalize_hashtag_list zhTags maxCount
  let zh := if sourceLanguage = some "zh" ∧ zh = [] then original else zh
  let primary := if preferZh then zh else original
  let fallback := if preferZh then original else zh
  if primary ≠ [] then primary else fallback

/-! ## §4.5 LLM output validation (`LLMClient._parse_result`) -/

/-- `MAX_OUTPUT_TAGS`, `MAX_TITLE_LENGTH` and the summary caps. -/
def MAX_OUTPUT_TAGS : Nat := 5
def MAX_TITLE_LENGTH : Nat := 120
def MAX_SUMMARY_SHORT_LENGTH_ZH : Nat := 100
def MAX_SUMMARY_LONG_LENGTH_ZH : Nat := 300
def MAX_SUMMARY_SHORT_LENGTH_NON_ZH : Nat := 200
def MAX_SUMMARY_LONG_LENGTH_NON_ZH : Nat := 600

/-- The model-output JSON object (`output = self._parse_json_content(...)`). -/
abbrev Output := List (PStr × JVal)

/-- `output.get(key)`. -/
def outGet (o : Output) (k : String) : Option JVal :=
  (o.find? (fun p => p.1 = pstr k)).map Prod.snd

/-- A Python `or`-chain `output.get(k1) or output.get(k2) or ...`: the first
truthy value; a final falsy value behaves like `None` in every consumer
(`isinstance`-guarded normalizers), so the chain is modeled as `Option`. -/
def outGetOr (o : Output) (ks : List String) : Option JVal :=
  match ks with
  | [] => none
  | k :: rest =>
    match outGet o k with
    | some v => if v.truthy then some v else outGetOr o rest
    | none => outGetOr o rest

/-- `CJK_RE = [㐀-䶿一-鿿]`. -/
def isCJKChar (c : Nat) : Bool :=
  (0x3400 ≤ c && c ≤ 0x4DBF) || (0x4E00 ≤ c && c ≤ 0x9FFF)

/-- `LLMClient._detect_source_language(text)`. -/
def detect_source_language (text : PStr) : String :=
  if text = [] then "non-zh"
  else if 8 ≤ (text.filter isCJKChar).length then "zh"
  else "non-zh"

/-- `LLMClient._normalize_language(raw, fallback_text=...)`. -/
def normalize_language (raw : Option JVal) (fallbackText : PStr) : String :=
  match raw with
  | some (.jstr s) =>
    let value := pyLower (pyStrip s)
    if value = pstr "zh" ∨ value = pstr "zh-cn" ∨ value = pstr "zh-hans" ∨
        value = pstr "chinese" ∨ value = pstr "cn" then "zh"
    else if value = pstr "non-zh" ∨ value = pstr "en" ∨ value = pstr "en-us" ∨
        value = pstr "english" ∨ value = pstr "other" then "non-zh"
    else detect_source_language fallbackText
  | _ => detect_source_language fallbackText

/-- Text content of a JSON value as interpolated by an f-string (only the
string case matters to the language fallback; other values repr briefly). -/
def jvalText : JVal → PStr
  | .jstr s => s
  | .jnull => pstr "None"
  | .jbool true => pstr "True"
  | .jbool false => pstr "False"
  | .jnum n => pstr (toString n)
  | .jlist _ => pstr "[...]"

/-- `LLMClient._normalize_title(raw)`. -/
def normalize_title (raw : Option JVal) : Option PStr :=
  match raw with
  | some (.jstr s) =>
    let title := pyStrip s
    if title = [] then none else some (title.take MAX_TITLE_LENGTH)
  | _ => none

/-- `LLMClient._normalize_summary_optional(raw, max_length=...)` on a JSON
value. -/
def normalize_summary_optional (raw : Option JVal) (maxLength : Nat) :
    Option PStr :=
  match raw with
  | some (.jstr s) =>
    let normalized := (pyStrip s).take maxLength
    if normalized = [] then none else some normalized
  | _ => none

/-- `LLMClient._normalize_summary_optional` on an already-normalized
optional string (the re-normalization inside `_resolve_summary_pair`). -/
def normalize_summary_opt_str (raw : Option PStr) (maxLength : Nat) :
    Option PStr :=
  match raw with
  | some s =>
    let normalized := (pyStrip s).take maxLength
    if normalized = [] then none else some normalized
  | none => none

/-- `LLMClient._truncate_summary_for_short(text, max_length=...)`. -/
def truncate_summary_for_short (text : PStr) (maxLength : Nat) : PStr :=
  let normalized := pyStrip text
  if normalized.length ≤ maxLength then normalized
  else pyRstrip (normalized.take maxLength)

/-- `LLMClient._resolve_summary_pair(...)`. -/
def resolve_summary_pair (shortText longText : Option PStr)
    (shortMax longMax : Nat) : Option PStr × Option PStr :=
  let shortValue := normalize_summary_opt_str shortText shortMax
  let longValue := normalize_summary_opt_str longText longMax
  if shortValue = none ∧ longValue = none then (none, none)
  else
    let longValue := if longValue = none then shortValue else longValue
    let shortValue :=
      if shortValue = none then
        match longValue with
        | some l => some (truncate_summary_for_short l shortMax)
        | none => none
      else shortValue
    (shortValue, longValue)

/-- `LLMClient._summary_limits_for_language(source_language)`. -/
def summary_limits_for_language (sourceLanguage : String) : Nat × Nat :=
  if sourceLanguage = "zh" then
    (MAX_SUMMARY_SHORT_LENGTH_ZH, MAX_SUMMARY_LONG_LENGTH_ZH)
  else (MAX_SUMMARY_SHORT_LENGTH_NON_ZH, MAX_SUMMARY_LONG_LENGTH_NON_ZH)

/-- `LLMClient._normalize_optional_string(raw)`. -/
def normalize_optional_string (raw : Option JVal) : Option PStr :=
  match raw with
  | some (.jstr s) =>
    let normalized := pyStrip s
    if normalized = [] then none else some normalized
  | _ => none

/-- `LLMClient._normalize_tags(raw)`. -/
def normalize_tags (raw : Option JVal) : List PStr :=
  match raw with
  | some (.jlist xs) => normalize_hashtag_list xs MAX_OUTPUT_TAGS
  | _ => []

/-- `LLMAnalysisResult` (slots dataclass in `llm_client.py`): note it has
`summary_short`/`summary_long` fields and **no** `summary` attribute. -/
structure LLMAnalysisResult where
  source_language : String
  title : Option PStr
  title_zh : Option PStr
  published_at : Option PDateTime
  summary_short : PStr
  summary_short_zh : Option PStr
  summary_long : PStr
  summary_long_zh : Option PStr
  tags : List PStr
  tags_zh : Option (List PStr)
  model_name : Option PStr
  input_tokens : Option Int
  output_tokens : Option Int
  raw_response : Output
deriving Repr, DecidableEq

/-- The slot names of the `LLMAnalysisResult` dataclass; attribute access on
any other name raises `AttributeError` (slots dataclass). -/
def llmAnalysisResultSlots : List String :=
  ["source_language", "title", "title_zh", "published_at", "summary_short",
   "summary_short_zh", "summary_long", "summary_long_zh", "tags", "tags_zh",
   "model_name", "input_tokens", "output_tokens", "raw_response"]

/-- The fallback text `f"{title}\n{summary_long or summary or summary_short}"`
handed to language detection by `_parse_result`. -/
def languageFallbackText (o : Output) : PStr :=
  (match outGetOr o ["title"] with
   | some v => jvalText v
   | none => []) ++ [10] ++
  (match outGetOr o ["summary_long", "summary", "summary_short"] with
   | some v => jvalText v
   | none => [])

/-- The detected source language of `_parse_result`. -/
def parsedSourceLanguage (o : Output) : String :=
  normalize_language (outGetOr o ["source_language", "language"])
    (languageFallbackText o)

/-- The normalized zh summary pair of `_parse_result`. -/
def parsedZhSummaryPair (o : Output) : Option PStr × Option PStr :=
  resolve_summary_pair
    (normalize_summary_optional
      (outGetOr o ["summary_short_zh", "summaryShortZh", "short_summary_zh",
        "summary_zh", "summaryZh", "translated_summary"])
      MAX_SUMMARY_SHORT_LENGTH_ZH)
    (normalize_summary_optional
      (outGetOr o ["summary_long_zh", "summaryLongZh", "long_summary_zh",
        "summary_zh", "summaryZh", "translated_summary"])
      MAX_SUMMARY_LONG_LENGTH_ZH)
    MAX_SUMMARY_SHORT_LENGTH_ZH MAX_SUMMARY_LONG_LENGTH_ZH

/-- The normalized original-language summary pair of `_parse_result`. -/
def parsedSummaryPair (o : Output) : Option PStr × Option PStr :=
  let limits := summary_limits_for_language (parsedSourceLanguage o)
  resolve_summary_pair
    (normalize_summary_optional
      (outGetOr o ["summary_short", "summaryShort", "short_summary", "summary"])
      limits.1)
    (normalize_summary_optional
      (outGetOr o ["summary_long", "summaryLong", "long_summary",
        "summary_detail", "summary"])
      limits.2)
    limits.1 limits.2

/-- The normalized `tags` of `_parse_result`. -/
def parsedTags (o : Output) : List PStr :=
  normalize_tags (outGetOr o ["tags"])

/-- The normalized `tags_zh` of `_parse_result`. -/
def parsedTagsZh (o : Output) : List PStr :=
  normalize_tags
    (outGetOr o ["tags_zh", "tagsZh", "translated_tags", "translatedTags"])

/-- `LLMClient._parse_result` from the decoded JSON object `o` on, i.e.
after `_extract_response_text` and `_parse_json_content` produced `o` and
`_extract_usage` produced `modelName`/`inputTokens`/`outputTokens` for the
raw response `responseRaw`; `now` is the current UTC time used by
`parse_datetime`. -/
def parse_result_output (now : PDateTime) (modelName : Option PStr)
    (inputTokens outputTokens : Option Int) (responseRaw : Output)
    (o : Output) : Except LLMClientError LLMAnalysisResult :=
  let source_language := parsedSourceLanguage o
  let title := normalize_title (outGetOr o ["title"])
  let title_zh :=
    normalize_title (outGetOr o ["title_zh", "titleZh", "translated_title"])
  let published_at :=
    parse_datetime now
      (normalize_optional_string
        (outGetOr o ["published_at", "publishedAt", "publish_time"]))
  let pair := parsedSummaryPair o
  let zhPair := parsedZhSummaryPair o
  let tags := parsedTags o
  let tags_zh := parsedTagsZh o
  match pair.1, pair.2 with
  | some summary_short, some summary_long =>
    if source_language = "non-zh" ∧ (zhPair.1 = none ∨ zhPair.2 = none) then
      .error ⟨"invalid_output", pstr "非中文内容缺少中文摘要"⟩
    else if tags = [] then
      .error ⟨"invalid_output", pstr "模型输出缺少有效标签"⟩
    else if source_language = "non-zh" ∧ tags_zh = [] then
      .error ⟨"invalid_output", pstr "非中文内容缺少中文标签"⟩
    else
      let summary_short_zh :=
        if source_language = "zh" ∧ zhPair.1 = none then some summary_short
        else zhPair.1
      let summary_long_zh :=
        if source_language = "zh" ∧ zhPair.2 = none then some summary_long
        else zhPair.2
      let title_zh :=
        if source_language = "zh" ∧ title_zh = none then title else title_zh
      let tags_zh :=
        if source_language = "zh" ∧ tags_zh = [] then tags else tags_zh
      .ok
        { source_language := source_language
          title := title
          title_zh := title_zh
          published_at := published_at
          summary_short := summary_short
          summary_short_zh := summary_short_zh
          summary_long := summary_long
          summary_long_zh := summary_long_zh
          tags := tags
          tags_zh := some tags_zh
          model_name := modelName
          input_tokens := inputTokens
          output_tokens := outputTokens
          raw_response := responseRaw }
  | _, _ => .error ⟨"invalid_output", pstr "模型输出缺少有效摘要"⟩

/-- The error code of an `Except LLMClientError` result, when it failed. -/
def exceptErrCode : Except LLMClientError α → Option String
  | .error e => some e.code
  | .ok _ => none

/-! ## §4.6 analysis orchestrator (`app/services/note_service.py`) -/

/-- Exceptions escaping `NoteService._analyze_source`: the typed
`AnalysisError(code=..., message=...)`, or an untyped Python exception —
here an `AttributeError` from a missing dataclass slot. -/
inductive AnalysisExc where
  | analysisError (code : String) (message : PStr)
  | attributeError (objClass attr : String)
deriving Repr, DecidableEq

/-- `str(exc)` (the `AttributeError` text is CPython's
`'X' object has no attribute 'a'`, rendered here without quotes). -/
def AnalysisExc.excMessage : AnalysisExc → PStr
  | .analysisError _ m => m
  | .attributeError objClass attr =>
    pstr (objClass ++ " object has no attribute " ++ attr)

/-- `exc.__class__.__name__`. -/
def AnalysisExc.excClassName : AnalysisExc → String
  | .analysisError _ _ => "AnalysisError"
  | .attributeError _ _ => "AttributeError"

/-- `SourceAnalysis` (dataclass in `note_service.py`). -/
structure SourceAnalysis where
  source_language : String
  title : Option PStr
  title_zh : Option PStr
  published_at : Option PDateTime
  summary_text : PStr
  summary_text_zh : Option PStr
  tags : List PStr
  tags_zh : List PStr
  model_provider : Option String
  model_name : Option PStr
  model_version : Option String
  prompt_version : Option String
  input_tokens : Option Int
  output_tokens : Option Int
  raw_response_json : Output
deriving Repr, DecidableEq

def MAX_ANALYSIS_TAGS : Nat := 5

/-- `NoteService._build_source_analysis(result=..., fallback_title=...,
fallback_published_at=..., model_provider=..., model_version=...)`.

After the tag checks the source executes
`summary_text = result.summary.strip()[:400]`; `LLMAnalysisResult` is a
`slots=True` dataclass whose fields are `summary_short`/`summary_long` —
it has no attribute `summary`, so the lookup raises `AttributeError`
before any `SourceAnalysis` can be built. -/
def build_source_analysis (result : LLMAnalysisResult)
    (fallbackTitle : Option PStr) (fallbackPublishedAt : Option PDateTime)
    (modelProvider : String) (modelVersion : Option String) :
    Except AnalysisExc SourceAnalysis :=
  let tags := result.tags.take MAX_ANALYSIS_TAGS
  if tags = [] then
    .error (.analysisError "invalid_output" (pstr "模型未返回有效标签"))
  else
    let tags_zh := (result.tags_zh.getD []).take MAX_ANALYSIS_TAGS
    if result.source_language ≠ "zh" ∧ tags_zh = [] then
      .error (.analysisError "invalid_output" (pstr "模型未返回中文标签"))
    else
      .error (.attributeError "LLMAnalysisResult" "summary")

/-- `NoteService._analyze_source_with_llm`: first `analyze(repair_mode=False)`;
an `LLMClientError` with code other than `invalid_output` is re-raised as
`AnalysisError` at once; `invalid_output` triggers exactly one
`analyze(repair_mode=True)`.  Returns the list of `repair_mode` flags of
the `analyze` calls made, together with the outcome. -/
def analyze_source_with_llm
    (analyze : Bool → Except LLMClientError LLMAnalysisResult)
    (sourceTitle : Option PStr) (inferredPublishedAt : Option PDateTime)
    (modelProvider : String) :
    List Bool × Except AnalysisExc SourceAnalysis :=
  match analyze false with
  | .ok result =>
    ([false],
      build_source_analysis result sourceTitle inferredPublishedAt
        modelProvider none)
  | .error exc =>
    if exc.code ≠ "invalid_output" then
      ([false], .error (.analysisError exc.code exc.message))
    else
      match analyze true with
      | .ok result =>
        ([false, true],
          build_source_analysis result sourceTitle inferredPublishedAt
            modelProvider none)
      | .error second =>
        ([false, true], .error (.analysisError second.code second.message))

def ANALYSIS_STAGE_UNKNOWN : String := "unknown"
def ANALYSIS_STAGE_CONTENT_FETCH : String := "content_fetch"
def ANALYSIS_STAGE_LLM_REQUEST : String := "llm_request"
def ANALYSIS_STAGE_LLM_PARSE : String := "llm_parse"

/-- `NoteService._classify_stage_by_error_code` (codes are produced
lower-case; `strip().lower()` is the identity on them). -/
def classify_stage_by_error_code (errorCode : String) : String :=
  if errorCode = "" then ANALYSIS_STAGE_UNKNOWN
  else if errorCode = "source_unreachable" ∨ errorCode = "empty_content" then
    ANALYSIS_STAGE_CONTENT_FETCH
  else if errorCode = "invalid_output" ∨ errorCode = "llm_invalid_response" then
    ANALYSIS_STAGE_LLM_PARSE
  else if errorCode.startsWith "llm_" then ANALYSIS_STAGE_LLM_REQUEST
  else ANALYSIS_STAGE_UNKNOWN

/-- `NoteService._is_retryable_error_code`. -/
def is_retryable_error_code (errorCode : String) : Bool :=
  errorCode = "source_unreachable" || errorCode = "llm_timeout" ||
  errorCode = "llm_network_error" || errorCode = "llm_http_error" ||
  errorCode = "llm_request_failed"

/-- The transient-failure keyword list of `NoteService._is_retryable_message`. -/
def noteRetryableHints : List PStr :=
  [pstr "timed out", pstr "timeout", pstr "temporarily unavailable",
   pstr "connection reset", pstr "connection aborted", pstr "connection refused",
   pstr "temporary failure", pstr "try again", pstr "429", pstr "502",
   pstr "503", pstr "504", pstr "rate limit", pstr "overloaded",
   pstr "请稍后重试"]

/-- Python `needle in hay` substring containment. -/
def containsSub (needle : PStr) (hay : PStr) : Bool :=
  match hay with
  | [] => needle.isEmpty
  | _ :: t => needle.isPrefixOf hay || containsSub needle t

/-- `NoteService._is_retryable_message(message)`. -/
def is_retryable_message (message : PStr) : Bool :=
  let lowered := pyLower (pyStrip message)
  if lowered = [] then false
  else noteRetryableHints.any (fun h => containsSub h lowered)

/-- `AnalysisFailureDiagnostic` (dataclass in `note_service.py`). -/
structure AnalysisFailureDiagnostic where
  error_stage : String
  error_class : String
  retryable : Bool
  elapsed_ms : Nat
deriving Repr, DecidableEq

/-- `NoteService._build_failure_diagnostic(exc=..., started_at=...)`
(elapsed milliseconds passed explicitly). -/
def build_failure_diagnostic (exc : AnalysisExc) (elapsedMs : Nat) :
    AnalysisFailureDiagnostic :=
  match exc with
  | .analysisError code message =>
    ⟨classify_stage_by_error_code code, "AnalysisError",
      is_retryable_error_code code || is_retryable_message message, elapsedMs⟩
  | e =>
    ⟨ANALYSIS_STAGE_UNKNOWN, e.excClassName,
      is_retryable_message (pyStrip e.excMessage), elapsedMs⟩

/-- A `notes` row, restricted to the fields the analysis job touches. -/
structure NoteRec where
  id : Nat
  analysis_status : String
  analysis_error : Option PStr
  source_title : Option PStr
  tags_json : List PStr
  note_body_md : PStr
  visibility : String
deriving Repr, DecidableEq

/-- A `note_ai_summaries` row as written by `note_repo.create_summary`. -/
structure SummaryRec where
  status : String
  source_language : Option String
  output_title : Option PStr
  output_title_zh : Option PStr
  published_at : Option PDateTime
  output_summary : Option PStr
  output_summary_zh : Option PStr
  output_tags : Option (List PStr)
  output_tags_zh : Option (List PStr)
  summary_text : Option PStr
  error_code : Option String
  error_message : Option PStr
  error_stage : Option String
  error_class : Option String
  retryable : Option Bool
  elapsed_ms : Option Nat
deriving Repr, DecidableEq

/-- The observable state the analysis job interacts with: the note row,
the appended AnalysisResult rows, the commit/rollback counts, and the
fetch/LLM calls that were issued. -/
structure NoteWorld where
  note : Option NoteRec
  summaries : List SummaryRec
  commits : Nat
  rollbacks : Nat
  fetchCalls : Nat
  llmCalls : List Bool
deriving Repr, DecidableEq

/-- `NoteService._mark_analysis_failed`: rollback, set the note to
`failed` with the truncated message, append a `failed` AnalysisResult,
commit. -/
def mark_analysis_failed (w : NoteWorld) (errorCode : String)
    (errorMessage : PStr) (errorStage errorClass : String) (retryable : Bool)
    (elapsedMs : Nat) : NoteWorld :=
  let w := { w with rollbacks := w.rollbacks + 1 }
  match w.note with
  | none => w
  | some note =>
    let msg :=
      (pyStrip (if errorMessage = [] then pstr "分析失败" else errorMessage)).take 500
    let note' := { note with analysis_status := "failed",
                             analysis_error := some msg }
    let row : SummaryRec :=
      { status := "failed", source_language := none, output_title := none,
        output_title_zh := none, published_at := none, output_summary := none,
        output_summary_zh := none, output_tags := none, output_tags_zh := none,
        summary_text := none, error_code := some errorCode,
        error_message := some msg, error_stage := some errorStage,
        error_class := some errorClass, retryable := some retryable,
        elapsed_ms := some elapsedMs }
    { w with note := some note', summaries := w.summaries ++ [row],
             commits := w.commits + 1 }

/-- The success tail of `run_analysis_job` (note update + `succeeded`
AnalysisResult + commit). -/
def analysisSuccessTail (w : NoteWorld) (result : SourceAnalysis) : NoteWorld :=
  match w.note with
  | none => w
  | some note =>
    let newTitle : Option PStr :=
      match result.title, note.source_title with
      | some t, _ => if t = [] then none else some (t.take 512)
      | none, some t => if t = [] then none else some (t.take 512)
      | none, none => none
    let note' :=
      { note with
        source_title := newTitle
        tags_json :=
          if note.tags_json = [] ∧ result.tags ≠ [] then result.tags
          else note.tags_json
        analysis_status := "succeeded"
        analysis_error := none }
    let row : SummaryRec :=
      { status := "succeeded", source_language := some result.source_language,
        output_title := result.title, output_title_zh := result.title_zh,
        published_at := result.published_at,
        output_summary := some result.summary_text,
        output_summary_zh := result.summary_text_zh,
        output_tags := some result.tags, output_tags_zh := some result.tags_zh,
        summary_text := some result.summary_text, error_code := none,
        error_message := none, error_stage := none, error_class := none,
        retryable := none, elapsed_ms := none }
    { w with note := some note', summaries := w.summaries ++ [row],
             commits := w.commits + 1 }

/-- `NoteService.run_analysis_job(note_id=...)`.  The collaborators are
passed explicitly: `fetch` is the outcome of `_fetch_source_content`
(title, content, published hint), `apiKeyConfigured` is
`bool(settings.llm_api_key.strip())`, `analyze` is the LLM client keyed by
`repair_mode`, `elapsedMs` the measured elapsed time. -/
def run_analysis_job
    (fetch : Except PStr (Option PStr × PStr × Option PDateTime))
    (apiKeyConfigured : Bool)
    (analyze : Bool → Except LLMClientError LLMAnalysisResult)
    (modelProvider : String) (elapsedMs : Nat) (w : NoteWorld) : NoteWorld :=
  match w.note with
  | none => w
  | some note =>
    if note.analysis_status ≠ "pending" then w
    else
      let note1 := { note with analysis_status := "running",
                               analysis_error := none }
      let w1 := { w with note := some note1, commits := w.commits + 1 }
      let w2 := { w1 with fetchCalls := w1.fetchCalls + 1 }
      let failWith := fun (w : NoteWorld) (exc : AnalysisExc) =>
        let d := build_failure_diagnostic exc elapsedMs
        match exc with
        | .analysisError code message =>
          mark_analysis_failed w code message d.error_stage d.error_class
            d.retryable d.elapsed_ms
        | e =>
          mark_analysis_failed w "analysis_error"
            (let m := pyStrip e.excMessage
             if m = [] then pstr "分析失败" else m)
            d.error_stage d.error_class d.retryable d.elapsed_ms
      match fetch with
      | .error _ =>
        failWith w2
          (.analysisError "source_unreachable" (pstr "来源链接暂不可访问，请稍后重试"))
      | .ok (title, content, inferred) =>
        if content = [] then
          failWith w2 (.analysisError "empty_content" (pstr "来源内容为空，无法分析"))
        else if ¬ apiKeyConfigured then
          failWith w2
            (.analysisError "llm_not_configured"
              (pstr "模型 API Key 未配置，无法执行内容分析"))
        else
          let res := analyze_source_with_llm analyze title inferred modelProvider
          let w3 := { w2 with llmCalls := w2.llmCalls ++ res.1 }
          match res.2 with
          | .error exc => failWith w3 exc
          | .ok analysis => analysisSuccessTail w3 analysis

/-! ## §4.6 aggregation analysis (`app/services/aggregation_service.py`) -/

/-- The transient-failure keyword list of
`AggregationService._is_retryable_error`. -/
def aggRetryableHints : List PStr :=
  [pstr "timed out", pstr "timeout", pstr "temporarily unavailable",
   pstr "connection reset", pstr "connection aborted", pstr "connection refused",
   pstr "name or service not known", pstr "temporary failure", pstr "try again",
   pstr "429", pstr "502", pstr "503", pstr "504", pstr "rate limit",
   pstr "overloaded"]

/-- `AggregationService._is_retryable_error(exc, message=...)` for an
exception whose `str` is `message` (non-empty in the uses modeled). -/
def agg_is_retryable_message (message : PStr) : Bool :=
  let lowered := pyLower (pyStrip message)
  aggRetryableHints.any (fun h => containsSub h lowered)

/-- Exceptions from `AggregationService._analyze_with_model`: the typed
`AggregationStageError`, or an untyped Python exception (here the
`AttributeError` from the missing `summary` slot). -/
inductive AggExc where
  | stageError (message : PStr) (stage : String) (retryable : Bool)
      (errorClass : String)
  | attributeError (objClass attr : String)
deriving Repr, DecidableEq

/-- `AggregateAnalysisResult` (dataclass in `aggregation_service.py`). -/
structure AggregateAnalysisResult where
  source_language : String
  title : Option PStr
  title_zh : Option PStr
  published_at : Option PDateTime
  summary_text : PStr
  summary_text_zh : Option PStr
  tags : List PStr
  tags_zh : List PStr
  model_provider : Option String
  model_name : Option PStr
  model_version : Option String
deriving Repr, DecidableEq

/-- `AggregationService._analyze_with_model`: first
`analyze(repair_mode=False)`; an `LLMClientError` with code other than
`invalid_output` becomes a stage `llm_request` `AggregationStageError` at
once; `invalid_output` triggers exactly one `analyze(repair_mode=True)`,
whose failure becomes stage `llm_parse`, `retryable=False`.  On a
successful `analyze` the source then executes
`summary_text = (result.summary or "").strip()[:400]`, and the slots
dataclass `LLMAnalysisResult` has no attribute `summary`, so an
`AttributeError` is raised before any result can be built.  Returns the
`repair_mode` flags of the `analyze` calls made plus the outcome. -/
def analyze_with_model
    (analyze : Bool → Except LLMClientError LLMAnalysisResult) :
    List Bool × Except AggExc AggregateAnalysisResult :=
  match analyze false with
  | .ok _ => ([false], .error (.attributeError "LLMAnalysisResult" "summary"))
  | .error exc =>
    if exc.code ≠ "invalid_output" then
      ([false],
        .error (.stageError exc.message "llm_request"
          (agg_is_retryable_message exc.message) "LLMClientError"))
    else
      match analyze true with
      | .ok _ =>
        ([false, true], .error (.attributeError "LLMAnalysisResult" "summary"))
      | .error second =>
        ([false, true],
          .error (.stageError second.message "llm_parse" false "LLMClientError"))

/-! ## §4.1 URL machinery: percent-coding (`urllib.parse`) -/

def isHexDigitChar (c : Nat) : Bool :=
  isDigitChar c || (97 ≤ c && c ≤ 102) || (65 ≤ c && c ≤ 70)

def hexDigitVal (c : Nat) : Nat :=
  if isDigitChar c then c - 48 else if 97 ≤ c then c - 87 else c - 55

def hexVal (s : PStr) : Nat := s.foldl (fun acc c => acc * 16 + hexDigitVal c) 0

/-- UTF-8 encoding of one code point (`str.encode("utf-8")`). -/
def utf8EncodeChar (c : Nat) : List Nat :=
  if c < 0x80 then [c]
  else if c < 0x800 then [0xC0 + c / 64, 0x80 + c % 64]
  else if c < 0x10000 then [0xE0 + c / 4096, 0x80 + c / 64 % 64, 0x80 + c % 64]
  else [0xF0 + c / 262144, 0x80 + c / 4096 % 64, 0x80 + c / 64 % 64,
        0x80 + c % 64]

def utf8Encode (s : PStr) : List Nat := s.flatMap utf8EncodeChar

def isUtf8Cont (b : Nat) : Bool := 0x80 ≤ b && b ≤ 0xBF

/-- One step of UTF-8 decoding (`bytes.decode("utf-8", errors="replace")`):
the code point decoded at the front of `b :: rest` (U+FFFD for an invalid or
truncated sequence, consuming its maximal valid subpart) and the remaining
bytes. -/
def utf8Step (b : Nat) (rest : List Nat) : Nat × List Nat :=
  if b < 0x80 then (b, rest)
  else if 0xC2 ≤ b ∧ b ≤ 0xDF then
    match rest with
    | b1 :: r2 =>
      if isUtf8Cont b1 then ((b - 0xC0) * 64 + (b1 - 0x80), r2)
      else (0xFFFD, b1 :: r2)
    | [] => (0xFFFD, [])
  else if 0xE0 ≤ b ∧ b ≤ 0xEF then
    match rest with
    | b1 :: r2 =>
      if isUtf8Cont b1 ∧ (b ≠ 0xE0 ∨ 0xA0 ≤ b1) ∧ (b ≠ 0xED ∨ b1 < 0xA0) then
        match r2 with
        | b2 :: r3 =>
          if isUtf8Cont b2 then
            ((b - 0xE0) * 4096 + (b1 - 0x80) * 64 + (b2 - 0x80), r3)
          else (0xFFFD, b2 :: r3)
        | [] => (0xFFFD, [])
      else (0xFFFD, b1 :: r2)
    | [] => (0xFFFD, [])
  else if 0xF0 ≤ b ∧ b ≤ 0xF4 then
    match rest with
    | b1 :: r2 =>
      if isUtf8Cont b1 ∧ (b ≠ 0xF0 ∨ 0x90 ≤ b1) ∧ (b ≠ 0xF4 ∨ b1 < 0x90) then
        match r2 with
        | b2 :: r3 =>
          if isUtf8Cont b2 then
            match r3 with
            | b3 :: r4 =>
              if isUtf8Cont b3 then
                ((b - 0xF0) * 262144 + (b1 - 0x80) * 4096 + (b2 - 0x80) * 64 +
                  (b3 - 0x80), r4)
              else (0xFFFD, b3 :: r4)
            | [] => (0xFFFD, [])
          else (0xFFFD, b2 :: r3)
        | [] => (0xFFFD, [])
      else (0xFFFD, b1 :: r2)
    | [] => (0xFFFD, [])
  else (0xFFFD, rest)

/-- Fueled iteration of `utf8Step` (the fuel only needs to cover the byte
count: a step always consumes at least one byte). -/
def utf8DecodeF (fuel : Nat) (bs : List Nat) : PStr :=
  match fuel, bs with
  | 0, _ => []
  | _, [] => []
  | f + 1, b :: rest =>
    (utf8Step b rest).1 :: utf8DecodeF f (utf8Step b rest).2

/-- UTF-8 decoding of a byte run (`bytes.decode("utf-8", errors="replace")`;
invalid sequences yield U+FFFD per maximal valid subpart). -/
def utf8Decode (bs : List Nat) : PStr :=
  utf8DecodeF bs.length bs

/-- The always-safe characters of `urllib.parse.quote` (letters, digits,
`_.-~`; `urlencode`/`quote_plus` passes `safe=""`). -/
def isQuoteSafe (c : Nat) : Bool :=
  isAlphaChar c || isDigitChar c || c = 95 || c = 46 || c = 45 || c = 126

def hexUpperDigit (n : Nat) : Nat := if n < 10 then 48 + n else 55 + n

/-- `%XX` escape of one byte (upper-case hex, as CPython emits). -/
def pctByte (b : Nat) : PStr := [37, hexUpperDigit (b / 16), hexUpperDigit (b % 16)]

/-- `urllib.parse.quote_plus` on one character. -/
def quotePlusChar (c : Nat) : PStr :=
  if isQuoteSafe c then [c]
  else if c = 32 then [43]
  else (utf8EncodeChar c).flatMap pctByte

/-- `urllib.parse.quote_plus(s, safe="")`. -/
def quote_plus (s : PStr) : PStr := s.flatMap quotePlusChar

/-- The scanner of `urllib.parse.unquote`: literal characters pass through,
maximal runs of `%XX` escapes are collected into `pend` and UTF-8-decoded
together (errors="replace"); an invalid escape leaves `%` literal. -/
def unquoteAux (s : PStr) (pend : List Nat) : PStr :=
  match s with
  | 37 :: a :: b :: rest =>
    if isHexDigitChar a ∧ isHexDigitChar b then
      unquoteAux rest (pend ++ [hexDigitVal a * 16 + hexDigitVal b])
    else utf8Decode pend ++ 37 :: unquoteAux (a :: b :: rest) []
  | [37, a] => utf8Decode pend ++ [37, a]
  | [37] => utf8Decode pend ++ [37]
  | c :: rest => utf8Decode pend ++ c :: unquoteAux rest []
  | [] => utf8Decode pend

/-- `urllib.parse.unquote(s)` (UTF-8, errors="replace"). -/
def unquote (s : PStr) : PStr := unquoteAux s []

/-- `urllib.parse.unquote_plus(s)`: `+` to space, then `unquote`. -/
def unquote_plus (s : PStr) : PStr :=
  unquote (s.map (fun c => if c = 43 then 32 else c))

/-- `urllib.parse.parse_qsl(query, keep_blank_values=True)`. -/
def parse_qsl (qs : PStr) : List (PStr × PStr) :=
  (splitAll 38 qs).filterMap (fun nv =>
    if nv = [] then none
    else
      match splitOnFirst 61 nv with
      | (name, some value) => some (unquote_plus name, unquote_plus value)
      | (name, none) => some (unquote_plus name, []))

/-- `urllib.parse.urlencode(pairs, doseq=True)` over string pairs
(`quote_via=quote_plus`). -/
def urlencode (pairs : List (PStr × PStr)) : PStr :=
  List.intercalate [38]
    (pairs.map (fun p => quote_plus p.1 ++ [61] ++ quote_plus p.2))

/-! ## §4.1 URL machinery: `urllib.parse.urlsplit` and `ipaddress` -/

/-- One dotted-quad octet (`ipaddress` strict: digits only, at most 3,
no leading zero, value at most 255). -/
def parseOctet (t : PStr) : Option Nat :=
  if t ≠ [] ∧ t.length ≤ 3 ∧ t.all isDigitChar ∧
      (t.length = 1 ∨ t.headD 0 ≠ 48) then
    let v := digitsVal t
    if v ≤ 255 then some v else none
  else none

/-- `ipaddress.IPv4Address` textual parse, as a 32-bit value. -/
def parseIPv4 (s : PStr) : Option Nat :=
  match splitAll 46 s with
  | [a, b, c, d] => do
    let a ← parseOctet a
    let b ← parseOctet b
    let c ← parseOctet c
    let d ← parseOctet d
    some (((a * 256 + b) * 256 + c) * 256 + d)
  | _ => none

/-- One IPv6 hextet (1–4 hex digits). -/
def parseHextet (t : PStr) : Option Nat :=
  if t ≠ [] ∧ t.length ≤ 4 ∧ t.all isHexDigitChar then some (hexVal t) else none

/-- Split the `:`-separated parts at the single `::` compression marker
(already collapsed to one empty part); more than one empty part is
invalid. -/
def splitAtMarker (ps : List PStr) : Option (List PStr × Option (List PStr)) :=
  match ps with
  | [] => some ([], none)
  | g :: rest =>
    if g = [] then
      if rest.contains [] then none else some ([], some rest)
    else
      match splitAtMarker rest with
      | some (l, r) => some (g :: l, r)
      | none => none

/-- Hextet groups with an optional embedded IPv4 in final position. -/
def parseGroupsV4 (gs : List PStr) : Option (List Nat) :=
  match gs with
  | [] => some []
  | [g] =>
    if g.contains 46 then
      (parseIPv4 g).map (fun v => [v / 65536, v % 65536])
    else (parseHextet g).map (fun h => [h])
  | g :: rest => do
    let h ← parseHextet g
    let t ← parseGroupsV4 rest
    some (h :: t)

def parseHexGroups (gs : List PStr) : Option (List Nat) :=
  match gs with
  | [] => some []
  | g :: rest => do
    let h ← parseHextet g
    let t ← parseHexGroups rest
    some (h :: t)

def groupsToVal (gs : List Nat) : Nat :=
  gs.foldl (fun acc g => acc * 65536 + g) 0

/-- Collapse a leading `::` (two leading empty parts) to one marker; a
single leading empty part (a bare leading `:`) is invalid. -/
def adjustLead (ps : List PStr) : Option (List PStr) :=
  match ps with
  | [] :: [] :: rest => some ([] :: rest)
  | [] :: _ => none
  | other => some other

/-- `ipaddress.IPv6Address` textual parse (without scope), as a 128-bit
value. -/
def parseIPv6Addr (s : PStr) : Option Nat := do
  if s = [] then none
  else
    let parts := splitAll 58 s
    let ps ← adjustLead parts
    let psRev ← adjustLead ps.reverse
    let ps := psRev.reverse
    let (l, r?) ← splitAtMarker ps
    match r? with
    | none => do
      let gs ← parseGroupsV4 l
      if gs.length = 8 then some (groupsToVal gs) else none
    | some r => do
      let gl ← parseHexGroups l
      let gr ← parseGroupsV4 r
      if gl.length + gr.length ≤ 7 then
        some (groupsToVal (gl ++ List.replicate (8 - gl.length - gr.length) 0 ++ gr))
      else none

/-- `ipaddress.IPv6Address` with an optional `%scope` suffix. -/
def parseIPv6WithScope (s : PStr) : Option (Nat × Option PStr) :=
  match splitOnFirst 37 s with
  | (addr, none) => (parseIPv6Addr addr).map (fun v => (v, none))
  | (addr, some scope) =>
    if scope ≠ [] ∧ ¬ scope.contains 37 then
      (parseIPv6Addr addr).map (fun v => (v, some scope))
    else none

inductive IPAddr where
  | v4 (val : Nat)
  | v6 (val : Nat) (scope : Option PStr)
deriving Repr, DecidableEq

/-- `ipaddress.ip_address(host)` (`None` models the `ValueError`). -/
def ip_address (s : PStr) : Option IPAddr :=
  match parseIPv4 s with
  | some v => some (.v4 v)
  | none => (parseIPv6WithScope s).map (fun p => .v6 p.1 p.2)

def inV4Block (v net bits : Nat) : Bool :=
  net ≤ v && v < net + 2 ^ (32 - bits)

/-- The union `is_private ∨ is_loopback ∨ is_link_local ∨ is_multicast ∨
is_reserved ∨ is_unspecified` for IPv4 (the special-use registry blocks). -/
def ipv4Blocked (v : Nat) : Bool :=
  inV4Block v 0 8 || inV4Block v 0x0A000000 8 || inV4Block v 0x64400000 10 ||
  inV4Block v 0x7F000000 8 || inV4Block v 0xA9FE0000 16 ||
  inV4Block v 0xAC100000 12 || inV4Block v 0xC0000000 24 ||
  inV4Block v 0xC0000200 24 || inV4Block v 0xC0A80000 16 ||
  inV4Block v 0xC6120000 15 || inV4Block v 0xC6336400 24 ||
  inV4Block v 0xCB007100 24 || inV4Block v 0xE0000000 4 ||
  inV4Block v 0xF0000000 4

/-- The same union for IPv6 (global-unicast `2000::/3` is open except the
special sub-blocks; everything outside `2000::/3` falls in one of the
private/link-local/multicast/reserved blocks). -/
def ipv6Blocked (v : Nat) : Bool :=
  v < 0x20000000000000000000000000000000 ||
  0x40000000000000000000000000000000 ≤ v ||
  (0x20010000000000000000000000000000 ≤ v &&
    v < 0x20010200000000000000000000000000) ||
  (0x20010DB8000000000000000000000000 ≤ v &&
    v < 0x20010DB9000000000000000000000000) ||
  (0x20020000000000000000000000000000 ≤ v &&
    v < 0x20030000000000000000000000000000)

def ipBlocked : IPAddr → Bool
  | .v4 v => ipv4Blocked v
  | .v6 v _ => ipv6Blocked v

/-- `parsed.scheme, parsed.netloc, parsed.path, parsed.query,
parsed.fragment` of `urllib.parse.urlsplit`. -/
structure SplitResult where
  scheme : PStr
  netloc : PStr
  path : PStr
  query : PStr
  fragment : PStr
deriving Repr, DecidableEq

/-- CPython removes tab/CR/LF from the URL before splitting. -/
def removeUnsafeUrlChars (s : PStr) : PStr :=
  s.filter (fun c => !(c = 9 || c = 10 || c = 13))

def isSchemeChar (c : Nat) : Bool :=
  isAlphaChar c || isDigitChar c || c = 43 || c = 45 || c = 46

/-- Scheme extraction of `urlsplit`: the part before the first `:` when it
is a well-formed scheme (first char a letter, rest scheme chars),
lower-cased. -/
def extractScheme (url : PStr) : PStr × PStr :=
  match splitOnFirst 58 url with
  | (before, some after) =>
    if before ≠ [] ∧ (match before with
        | c :: _ => isAlphaChar c
        | [] => false) = true ∧ before.all isSchemeChar then
      (pyLower before, after)
    else ([], url)
  | (_, none) => ([], url)

def isNetlocEnd (c : Nat) : Bool := c = 47 || c = 63 || c = 35

/-- `hostinfo` = the netloc after the last `@`. -/
def hostInfoOf (netloc : PStr) : PStr :=
  (netloc.reverse.takeWhile (fun c => c ≠ 64)).reverse

/-- `parsed.username or parsed.password` truthiness: a non-empty user or
password part before the last `@`. -/
def hasUserinfoCreds (netloc : PStr) : Bool :=
  if netloc.contains 64 then
    let userinfo := ((netloc.reverse.dropWhile (fun c => c ≠ 64)).drop 1).reverse
    match splitOnFirst 58 userinfo with
    | (u, none) => u ≠ []
    | (u, some p) => u ≠ [] ∨ p ≠ []
  else false

/-- `(hostname-part, port-part)` of the netloc (`SplitResult._hostinfo`):
bracketed hosts take the part between `[` and `]` with the port after
`]:`; otherwise partition at the first `:`. -/
def hostPortOf (netloc : PStr) : PStr × PStr :=
  let hostinfo := hostInfoOf netloc
  if hostinfo.contains 91 then
    let bracketed := ((splitOnFirst 91 hostinfo).2).getD []
    match splitOnFirst 93 bracketed with
    | (host, some after) =>
      (host, match splitOnFirst 58 after with
             | (_, some p) => p
             | (_, none) => [])
    | (host, none) => (host, [])
  else
    match splitOnFirst 58 hostinfo with
    | (h, some p) => (h, p)
    | (h, none) => (h, [])

/-- `parsed.hostname or ""` (the property lower-cases). -/
def hostnameOf (netloc : PStr) : PStr := pyLower (hostPortOf netloc).1

/-- `parsed.port`: `None` when empty, `ValueError` on non-digits or a value
above 65535 (`int(port, 10)`, digits model). -/
def parsePort (portStr : PStr) : Except Unit (Option Nat) :=
  if portStr = [] then .ok none
  else if portStr.all isDigitChar then
    let v := digitsVal portStr
    if v ≤ 65535 then .ok (some v) else .error ()
  else .error ()

/-- The content between `[` and `]` of a netloc
(`netloc.partition("[")[2].partition("]")[0]`). -/
def bracketContent (netloc : PStr) : PStr :=
  (splitOnFirst 93 (((splitOnFirst 91 netloc).2).getD [])).1

/-- `urllib.parse._check_bracketed_host` (CPython ≥ 3.11): `v…` IPvFuture
form, else a valid IPv6 (an IPv4 in brackets is rejected). -/
def checkBracketedHost (h : PStr) : Bool :=
  match h with
  | 118 :: t =>
    let hexPart := t.takeWhile isHexDigitChar
    let rest := t.dropWhile isHexDigitChar
    !hexPart.isEmpty && (match rest with
      | 46 :: tail => !tail.isEmpty
      | _ => false)
  | _ =>
    match ip_address h with
    | some (.v6 _ _) => true
    | _ => false

/-- `urllib.parse.urlsplit(url)` (CPython ≥ 3.11 semantics, including the
bracketed-host validation; `.error` models the `ValueError`). -/
def urlsplit (url0 : PStr) : Except Unit SplitResult :=
  let url := removeUnsafeUrlChars url0
  let sr := extractScheme url
  let scheme := sr.1
  let rest0 := sr.2
  let netloc :=
    if [47, 47].isPrefixOf rest0 then
      (rest0.drop 2).takeWhile (fun c => !isNetlocEnd c)
    else []
  let rest1 :=
    if [47, 47].isPrefixOf rest0 then
      (rest0.drop 2).dropWhile (fun c => !isNetlocEnd c)
    else rest0
  if (netloc.contains 91 ∧ ¬ netloc.contains 93) ∨
      (netloc.contains 93 ∧ ¬ netloc.contains 91) then .error ()
  else if netloc.contains 91 ∧ netloc.contains 93 ∧
      ¬ checkBracketedHost (bracketContent netloc) then .error ()
  else
    let fr := splitOnFirst 35 rest1
    let fragment := (fr.2).getD []
    let qr := splitOnFirst 63 fr.1
    .ok ⟨scheme, netloc, qr.1, (qr.2).getD [], fragment⟩

/-- `urllib.parse.urlunsplit(components)`. -/
def urlunsplitE (scheme netloc path query fragment : PStr) : PStr :=
  let url :=
    if netloc ≠ [] ∨ [47, 47].isPrefixOf path then
      [47, 47] ++ netloc ++
        (if path ≠ [] ∧ path.headD 0 ≠ 47 then 47 :: path else path)
    else path
  let url := if scheme ≠ [] then scheme ++ [58] ++ url else url
  let url := if query ≠ [] then url ++ [63] ++ query else url
  if fragment ≠ [] then url ++ [35] ++ fragment else url

/-! ## §4.1 URL normalization (`note_service.py` / `aggregation_service.py`) -/

/-- Decimal rendering, fueled (the fuel only needs to cover the digit
count). -/
def natToDecF (fuel n : Nat) : PStr :=
  match fuel with
  | 0 => []
  | f + 1 =>
    if n < 10 then [48 + n]
    else natToDecF f (n / 10) ++ [48 + n % 10]

/-- Decimal rendering of a natural number (Python `f"{port}"` on an `int`). -/
def natToDec (n : Nat) : PStr := natToDecF (n + 1) n

/-- `DEFAULT_PORTS = {"http": 80, "https": 443}`. -/
def defaultPortOf (scheme : PStr) : Option Nat :=
  if scheme = pstr "http" then some 80
  else if scheme = pstr "https" then some 443
  else none

/-- `_ensure_public_host(host)` (both services): `True` = accepted. -/
def ensure_public_host (host : PStr) : Bool :=
  if host = pstr "localhost" ∨ (pstr ".local").isSuffixOf host then false
  else
    match ip_address host with
    | none => true
    | some ip => !ipBlocked ip

/-- `url_blacklist._domain_matches(host, rule)` (the host is already
normalized by the caller). -/
def blacklistRuleMatches (host rule : PStr) : Bool :=
  let nr := pyStripChars [46] (pyLower (pyStrip rule))
  !nr.isEmpty && (host = nr || (46 :: nr).isSuffixOf host)

/-- `url_blacklist.match_blacklisted_host(host)` over the configured rule
lists (the JSON config is not part of the sources, so the rule lists are
parameters). -/
def match_blacklisted_host (videoRules antiCrawlRules : List PStr)
    (host : PStr) : Option (String × PStr) :=
  let nh := pyStripChars [46] (pyLower (pyStrip host))
  if nh = [] then none
  else
    match videoRules.find? (blacklistRuleMatches nh) with
    | some r => some ("video", r)
    | none => (antiCrawlRules.find? (blacklistRuleMatches nh)).map
        (fun r => ("anti_crawl", r))

/-- The host as both services compute it:
`(parsed.hostname or "").strip().lower()`. -/
def hostOfSplit (parsed : SplitResult) : PStr :=
  pyLower (pyStrip (hostnameOf parsed.netloc))

/-- `NoteService._normalize_generic_url(parsed=..., host=..., port=...)`
(keeps the query untouched). -/
def note_normalize_generic_url (parsed : SplitResult) (host : PStr)
    (port : Option Nat) : PStr :=
  let scheme := pyLower parsed.scheme
  let hostForNetloc := if host.contains 58 then [91] ++ host ++ [93] else host
  let netloc :=
    match port with
    | some p =>
      if p ≠ 0 ∧ defaultPortOf scheme ≠ some p then
        hostForNetloc ++ [58] ++ natToDec p
      else hostForNetloc
    | none => hostForNetloc
  let path := if parsed.path = [] then [47] else parsed.path
  let path := if path.headD 0 = 47 then path else 47 :: path
  urlunsplitE scheme netloc path parsed.query []

/-- `TRACKING_QUERY_KEYS` in `aggregation_service.py`. -/
def TRACKING_QUERY_KEYS : List PStr :=
  [pstr "ref", pstr "source", pstr "spm", pstr "from", pstr "fbclid",
   pstr "gclid"]

/-- Whether `_strip_tracking_query` drops the pair with this key. -/
def isTrackingKey (key : PStr) : Bool :=
  let nk := pyLower (pyStrip key)
  nk.isEmpty || (pstr "utm_").isPrefixOf nk || TRACKING_QUERY_KEYS.contains nk

/-- `AggregationService._strip_tracking_query(query)`. -/
def strip_tracking_query (query : PStr) : PStr :=
  if query = [] then []
  else urlencode ((parse_qsl query).filter (fun kv => !isTrackingKey kv.1))

/-- `AggregationService._normalize_generic_url` (strips tracking keys from
the query). -/
def agg_normalize_generic_url (parsed : SplitResult) (host : PStr)
    (port : Option Nat) : PStr :=
  let scheme := pyLower parsed.scheme
  let hostForNetloc := if host.contains 58 then [91] ++ host ++ [93] else host
  let netloc :=
    match port with
    | some p =>
      if p ≠ 0 ∧ defaultPortOf scheme ≠ some p then
        hostForNetloc ++ [58] ++ natToDec p
      else hostForNetloc
    | none => hostForNetloc
  let path := if parsed.path = [] then [47] else parsed.path
  let path := if path.headD 0 = 47 then path else 47 :: path
  urlunsplitE scheme netloc path (strip_tracking_query parsed.query) []

/-- `AggregationService._normalize_source_url(raw_url)`: returns
`(source_url, normalized, host)` or raises `ValueError`. -/
def agg_normalize_source_url (rawUrl : PStr) :
    Except Unit (PStr × PStr × PStr) := do
  let source_url := pyStrip rawUrl
  match urlsplit source_url with
  | .error _ => .error ()
  | .ok parsed =>
    let scheme := pyLower parsed.scheme
    if ¬ (scheme = pstr "http" ∨ scheme = pstr "https") then .error ()
    else if hasUserinfoCreds parsed.netloc then .error ()
    else
      match parsePort (hostPortOf parsed.netloc).2 with
      | .error _ => .error ()
      | .ok port =>
        let host := hostOfSplit parsed
        if host = [] then .error ()
        else if ¬ ensure_public_host host then .error ()
        else .ok (source_url, agg_normalize_generic_url parsed host port, host)

def WECHAT_HOST : PStr := pstr "mp.weixin.qq.com"

def YOUTUBE_HOSTS : List PStr :=
  [pstr "youtube.com", pstr "www.youtube.com", pstr "m.youtube.com",
   pstr "youtu.be", pstr "www.youtu.be"]

/-- `YOUTUBE_VIDEO_ID_RE = ^[A-Za-z0-9_-]{6,20}$`. -/
def isYoutubeVideoId (s : PStr) : Bool :=
  6 ≤ s.length && s.length ≤ 20 &&
  s.all (fun c => isAlphaChar c || isDigitChar c || c = 95 || c = 45)

/-- `dict(urllib.parse.parse_qsl(query, keep_blank_values=True)).get(key, "")`
(a Python dict keeps the last value of duplicate keys). -/
def qslDictGet (pairs : List (PStr × PStr)) (k : PStr) : PStr :=
  match (pairs.filter (fun kv => kv.1 = k)).getLast? with
  | some kv => kv.2
  | none => []

/-- `NoteService._normalize_wechat_url(source_url, parsed, port)`. -/
def note_normalize_wechat (sourceUrl : PStr) (parsed : SplitResult)
    (port : Option Nat) : PStr × PStr × PStr :=
  let articleKey := pyStripChars [47] (parsed.path.drop 3)
  if (pstr "/s/").isPrefixOf parsed.path ∧ articleKey ≠ [] then
    (sourceUrl,
      urlunsplitE (pstr "https") WECHAT_HOST (pstr "/s/" ++ articleKey) [] [],
      WECHAT_HOST)
  else if parsed.path = pstr "/s" then
    let qm := parse_qsl parsed.query
    let hasRequired :=
      [pstr "__biz", pstr "mid", pstr "idx"].all
        (fun k => pyStrip (qslDictGet qm k) ≠ [])
    if hasRequired then
      let canonicalItems :=
        [pstr "__biz", pstr "mid", pstr "idx", pstr "sn"].filterMap
          (fun k =>
            let v := pyStrip (qslDictGet qm k)
            if v ≠ [] then some (k, v) else none)
      (sourceUrl,
        urlunsplitE (pstr "https") WECHAT_HOST (pstr "/s")
          (urlencode canonicalItems) [],
        WECHAT_HOST)
    else
      (sourceUrl, note_normalize_generic_url parsed WECHAT_HOST port,
        WECHAT_HOST)
  else
    (sourceUrl, note_normalize_generic_url parsed WECHAT_HOST port, WECHAT_HOST)

/-- `NoteService._normalize_youtube_url(source_url, parsed, port)`. -/
def note_normalize_youtube (sourceUrl : PStr) (parsed : SplitResult)
    (port : Option Nat) : PStr × PStr × PStr :=
  let host := hostOfSplit parsed
  let videoId :=
    if host = pstr "youtu.be" ∨ host = pstr "www.youtu.be" then
      let path := pyStripChars [47] parsed.path
      if path ≠ [] then (splitOnFirst 47 path).1 else []
    else if parsed.path = pstr "/watch" then
      pyStrip (qslDictGet (parse_qsl parsed.query) (pstr "v"))
    else if (pstr "/shorts/").isPrefixOf parsed.path ∨
        (pstr "/live/").isPrefixOf parsed.path ∨
        (pstr "/embed/").isPrefixOf parsed.path then
      let parts := (splitAll 47 parsed.path).filter (fun seg => seg ≠ [])
      if 2 ≤ parts.length then (parts.drop 1).headD [] else []
    else []
  let videoId := pyStrip (unquote videoId)
  if videoId ≠ [] ∧ isYoutubeVideoId videoId then
    (sourceUrl,
      urlunsplitE (pstr "https") (pstr "www.youtube.com") (pstr "/watch")
        (pstr "v=" ++ videoId) [],
      pstr "youtube.com")
  else
    (sourceUrl, note_normalize_generic_url parsed host port,
      pstr "youtube.com")

/-- Failures of `NoteService._normalize_source_url`: a 400 `HTTPException`,
or the uncaught `ValueError` from `urlsplit`. -/
inductive NoteNormErr where
  | badRequest
  | uncaughtValueError
deriving Repr, DecidableEq

/-- `NoteService._normalize_source_url(raw_url)` over the configured URL
blacklist rule lists. -/
def note_normalize_source_url (videoRules antiCrawlRules : List PStr)
    (rawUrl : PStr) : Except NoteNormErr (PStr × PStr × PStr) :=
  let source_url := pyStrip rawUrl
  match urlsplit source_url with
  | .error _ => .error .uncaughtValueError
  | .ok parsed =>
    let scheme := pyLower parsed.scheme
    if ¬ (scheme = pstr "http" ∨ scheme = pstr "https") then .error .badRequest
    else if hasUserinfoCreds parsed.netloc then .error .badRequest
    else
      match parsePort (hostPortOf parsed.netloc).2 with
      | .error _ => .error .badRequest
      | .ok port =>
        let host := hostOfSplit parsed
        if host = [] then .error .badRequest
        else if ¬ ensure_public_host host then .error .badRequest
        else if (match_blacklisted_host videoRules antiCrawlRules host).isSome
        then .error .badRequest
        else if host = WECHAT_HOST then
          .ok (note_normalize_wechat source_url parsed port)
        else if YOUTUBE_HOSTS.contains host then
          .ok (note_normalize_youtube source_url parsed port)
        else .ok (source_url, note_normalize_generic_url parsed host port, host)

/-! ## §4.4 feed entry collection (`AggregationService._collect_feed_entries`) -/

/-- `SKIP_LINK_PREFIXES = ("javascript:", "mailto:", "tel:", "#")`. -/
def skipLinkStarts : List PStr :=
  [pstr "javascript:", pstr "mailto:", pstr "tel:", pstr "#"]

/-- `SKIP_FILE_SUFFIXES` in `aggregation_service.py`. -/
def SKIP_FILE_SUFFIXES : List PStr :=
  [pstr ".jpg", pstr ".jpeg", pstr ".png", pstr ".gif", pstr ".webp",
   pstr ".svg", pstr ".ico", pstr ".pdf", pstr ".xml", pstr ".json",
   pstr ".zip", pstr ".mp4", pstr ".mp3"]

/-- `AggregationService._looks_like_asset_url(url)` (the url is an already
produced normalized URL, whose `urlsplit` cannot fail). -/
def looks_like_asset_url (url : PStr) : Bool :=
  match urlsplit url with
  | .error _ => false
  | .ok parsed =>
    let path := pyLower (pyStrip parsed.path)
    if path = [] then false
    else SKIP_FILE_SUFFIXES.any (fun ext => ext.isSuffixOf path)

/-- `AggregationService._domain_matches(host, source_domain)`. -/
def domain_matches (host sourceDomain : PStr) : Bool :=
  let nh := pyStripChars [46] (pyLower (pyStrip host))
  let nd := pyStripChars [46] (pyLower (pyStrip sourceDomain))
  !nh.isEmpty && !nd.isEmpty && (nh = nd || (46 :: nd).isSuffixOf nh)

/-- `AggregationService._normalize_title(raw)`. -/
def agg_normalize_title (raw : Option PStr) : Option PStr :=
  match raw with
  | none => none
  | some s =>
    let title := pyStrip s
    if title = [] then none else some (title.take 512)

/-- A raw feed entry as produced by `_parse_feed_entries`
(`{"link": ..., "title": ..., "published": ...}`). -/
structure RawFeedEntry where
  link : Option PStr
  title : Option PStr
  published : Option PStr
deriving Repr, DecidableEq

/-- `FeedEntryCandidate` (dataclass in `aggregation_service.py`). -/
structure FeedEntryCandidate where
  source_url : PStr
  source_title : Option PStr
  published_at : Option PDateTime
deriving Repr, DecidableEq

/-- The per-entry filter conditions of the `_collect_feed_entries` loop,
excluding deduplication: the normalized candidate for an entry, or `none`
when the entry is dropped (empty/skip-prefixed link, normalization
failure, foreign domain, asset URL). -/
def feedEntryCandidate (sourceDomain : PStr) (now : PDateTime)
    (e : RawFeedEntry) : Option FeedEntryCandidate :=
  let sourceUrl := pyStrip (e.link.getD [])
  if sourceUrl = [] then none
  else if skipLinkStarts.any (fun p => p.isPrefixOf (pyLower sourceUrl)) then
    none
  else
    match agg_normalize_source_url sourceUrl with
    | .error _ => none
    | .ok (_, normalizedUrl, host) =>
      if ¬ domain_matches host sourceDomain then none
      else if looks_like_asset_url normalizedUrl then none
      else
        some ⟨normalizedUrl, agg_normalize_title e.title,
          parse_datetime now e.published⟩

/-- The `for raw_entry in raw_entries` loop of `_collect_feed_entries`:
filter, deduplicate by normalized URL, stop at `max_items`. -/
def collectFeedLoop (sourceDomain : PStr) (now : PDateTime) (maxItems : Nat)
    (entries : List RawFeedEntry) (seen : List PStr)
    (acc : List FeedEntryCandidate) : List FeedEntryCandidate :=
  match entries with
  | [] => acc
  | e :: rest =>
    match feedEntryCandidate sourceDomain now e with
    | none => collectFeedLoop sourceDomain now maxItems rest seen acc
    | some cand =>
      if seen.contains cand.source_url then
        collectFeedLoop sourceDomain now maxItems rest seen acc
      else
        let acc' := acc ++ [cand]
        if maxItems ≤ acc'.length then acc'
        else
          collectFeedLoop sourceDomain now maxItems rest
            (seen ++ [cand.source_url]) acc'

/-- `AggregationService._collect_feed_entries` after feed fetch/parse
produced `rawEntries` (`max_items = max(1, settings.aggregation_max_items_per_source)`;
an empty result raises `ValueError`). -/
def collect_feed_entries (sourceDomain : PStr) (now : PDateTime)
    (maxItemsSetting : Nat) (rawEntries : List RawFeedEntry) :
    Except Unit (List FeedEntryCandidate) :=
  let entries :=
    collectFeedLoop sourceDomain now (max 1 maxItemsSetting) rawEntries [] []
  if entries = [] then .error () else .ok entries

/-- Order-preserving deduplication of candidates by normalized URL, given
the urls already seen. -/
def dedupCandidates (seen : List PStr) :
    List FeedEntryCandidate → List FeedEntryCandidate
  | [] => []
  | c :: rest =>
    if seen.contains c.source_url then dedupCandidates seen rest
    else c :: dedupCandidates (seen ++ [c.source_url]) rest

/-! ## Remaining definitions for the claims -/

/-- A valid Unicode scalar value (what a Python `str` element is). -/
def ValidChar (c : Nat) : Bool :=
  c < 0x110000 && !(0xD800 ≤ c && c ≤ 0xDFFF)

def ValidStr (s : PStr) : Bool := s.all ValidChar

/-- The reassembly described by the spec for generic hosts:
`scheme + host[:port] + path + remaining-query` (an IPv6 host appears in
brackets). -/
def claimReassemble (scheme hostPart : PStr) (port : Option Nat)
    (path query : PStr) : PStr :=
  scheme ++ pstr "://" ++ hostPart ++
    (match port with
     | some p => [58] ++ natToDec p
     | none => []) ++
    path ++ (if query = [] then [] else [63] ++ query)

/-- The port kept in the normalized URL: dropped when absent, zero, or
equal to the scheme default. -/
def keptPort (scheme : PStr) (port : Option Nat) : Option Nat :=
  match port with
  | some p => if p ≠ 0 ∧ defaultPortOf scheme ≠ some p then some p else none
  | none => none

/-- The path part both services emit: the parsed path, defaulted to `/`
and forced to start with `/`. -/
def claimPath (path : PStr) : PStr :=
  let p := if path = [] then [47] else path
  if p.headD 0 = 47 then p else 47 :: p

/-- The bracketed host part. -/
def claimHostPart (host : PStr) : PStr :=
  if host.contains 58 then [91] ++ host ++ [93] else host

/-! # Theorems -/

theorem take_all_of_le {α : Type} (l : List α) (n : Nat) (h : l.length ≤ n) :
    l.take n = l :=
  List.take_of_length_le h

theorem keyPointsLoop_eq (pieces : List PStr) (acc : List PStr)
    (h : acc.length < MAX_KEY_POINTS) :
    keyPointsLoop pieces acc =
      (acc ++
        ((pieces.map pyStrip).filter (fun l => 12 ≤ l.length)).map
          (List.take 96)).take MAX_KEY_POINTS := by
  induction pieces generalizing acc with
  | nil =>
    simp only [keyPointsLoop, List.map_nil, List.filter_nil, List.append_nil]
    exact (take_all_of_le _ _ (by omega)).symm
  | cons p rest ih =>
    simp only [keyPointsLoop]
    by_cases hl : (pyStrip p).length < 12
    · rw [if_pos hl, ih _ h]
      simp only [List.map_cons, List.filter_cons]
      have : ¬ (12 ≤ (pyStrip p).length) := by omega
      simp [this]
    · rw [if_neg hl]
      simp only [List.map_cons, List.filter_cons]
      have h12 : 12 ≤ (pyStrip p).length := by omega
      have hd : decide (12 ≤ (pyStrip p).length) = true := by simp [h12]
      simp only [hd, if_true, List.map_cons]
      by_cases hfull : MAX_KEY_POINTS ≤ (acc ++ [(pyStrip p).take 96]).length
      · rw [if_pos hfull]
        have hlen : (acc ++ [(pyStrip p).take 96]).length = MAX_KEY_POINTS := by
          simp at hfull ⊢
          simp [MAX_KEY_POINTS] at h hfull ⊢
          omega
        rw [show acc ++ ((pyStrip p).take 96 ::
              ((rest.map pyStrip).filter (fun l => decide (12 ≤ l.length))).map
                (List.take 96)) =
            (acc ++ [(pyStrip p).take 96]) ++
              ((rest.map pyStrip).filter (fun l => decide (12 ≤ l.length))).map
                (List.take 96) by simp]
        rw [← hlen]
        exact (List.take_left _ _).symm
      · rw [if_neg hfull]
        rw [ih _ (by omega)]
        simp

/-- **C10.** For every content string and summary text, the aggregation
key-point extractor returns exactly 3 strings of at most 96 characters
each: fragments of the content split on sentence punctuation and
(after stripping) shorter than 12 characters are skipped; when fewer than
3 qualifying fragments exist the list is padded — with the 96-character
prefix of the summary text if no fragment qualified, then with the fixed
boilerplate sentence. -/
theorem C10_extract_key_points (content summary_text : PStr) :
    extract_key_points content summary_text =
      ((if qualifyingFragments content = [] then [summary_text.take 96]
        else qualifyingFragments content) ++
        List.replicate 3 KEY_POINT_BOILERPLATE).take 3 ∧
    (extract_key_points content summary_text).length = 3 ∧
    ∀ s ∈ extract_key_points content summary_text, s.length ≤ 96 := by
  have hloop : keyPointsLoop (splitSentences content) [] =
      (qualifyingFragments content).take 3 := by
    rw [keyPointsLoop_eq _ _ (by simp [MAX_KEY_POINTS])]
    simp [qualifyingFragments, MAX_KEY_POINTS]
  have hmain : extract_key_points content summary_text =
      ((if qualifyingFragments content = [] then [summary_text.take 96]
        else qualifyingFragments content) ++
        List.replicate 3 KEY_POINT_BOILERPLATE).take 3 := by
    unfold extract_key_points
    rw [hloop]
    dsimp only
    by_cases hF : qualifyingFragments content = []
    · simp [hF, MAX_KEY_POINTS, List.replicate]
    · have hne : (qualifyingFragments content).take 3 ≠ [] := by
        intro hcon
        apply hF
        cases hq : qualifyingFragments content with
        | nil => rfl
        | cons a t => rw [hq] at hcon; simp [List.take] at hcon
      rw [if_neg hF, if_neg hne]
      simp only [MAX_KEY_POINTS]
      rcases Nat.lt_or_ge (qualifyingFragments content).length 3 with hn | hn
      · have ht : (qualifyingFragments content).take 3 =
            qualifyingFragments content := take_all_of_le _ _ (by omega)
        rw [ht]
        rw [take_all_of_le (qualifyingFragments content ++
              List.replicate (3 - (qualifyingFragments content).length)
                KEY_POINT_BOILERPLATE) 3 (by simp; omega)]
        rw [List.take_append_eq_append_take, ht, List.take_replicate]
        congr 2
        omega
      · have h3 : ((qualifyingFragments content).take 3).length = 3 := by
          simp [List.length_take]; omega
        rw [h3]
        simp only [Nat.sub_self, List.replicate_zero, List.append_nil]
        rw [List.take_append_eq_append_take]
        have : 3 - (qualifyingFragments content).length = 0 := by omega
        rw [this, List.take_replicate]
        simp [List.take_take]
  refine ⟨hmain, ?_, ?_⟩
  · rw [hmain]
    rw [List.length_take]
    by_cases hF : qualifyingFragments content = [] <;>
      simp [hF, List.length_replicate]
  · intro s hs
    rw [hmain] at hs
    have hs' := List.take_subset _ _ hs
    rcases List.mem_append.mp hs' with hL | hR
    · by_cases hF : qualifyingFragments content = []
      · rw [if_pos hF] at hL
        simp at hL
        subst hL
        simp [List.length_take]
      · rw [if_neg hF] at hL
        unfold qualifyingFragments at hL
        rcases List.mem_map.mp hL with ⟨x, _, hx⟩
        subst hx
        simp [List.length_take]
    · have := List.eq_of_mem_replicate hR
      subst this
      decide

/-- **C9.** The published-date parser returns `None` whenever the value
parsed by `_parse_datetime_value` has a year before 1970 or lies more than
370 days after the current time; in particular a date in year 1969 is
rejected, and every non-`None` result is a UTC timestamp inside that
window. -/
theorem C9_parse_datetime_window :
    (∀ (now : PDateTime) (v : PStr) (d : PDateTime),
        parseDatetimeValue (parseDatetimePre v) = some d →
        d.year < 1970 ∨ epochOf d > epochOf now + 370 * 86400 →
        parse_datetime now (some v) = none) ∧
    (∀ (now : PDateTime) (value : Option PStr) (d : PDateTime),
        parse_datetime now value = some d →
        1970 ≤ d.year ∧ epochOf d ≤ epochOf now + 370 * 86400) ∧
    (∀ now : PDateTime, parse_datetime now (some (pstr "1969-05-03")) = none) := by
  have h1 : ∀ (now : PDateTime) (v : PStr) (d : PDateTime),
      parseDatetimeValue (parseDatetimePre v) = some d →
      d.year < 1970 ∨ epochOf d > epochOf now + 370 * 86400 →
      parse_datetime now (some v) = none := by
    intro now v d hpv hbad
    by_cases hraw : parseDatetimePre v = []
    · rw [hraw] at hpv
      have hnone : parseDatetimeValue [] = none := by decide
      rw [hnone] at hpv
      cases hpv
    · simp only [parse_datetime]
      rw [if_neg hraw, hpv]
      dsimp only
      rw [if_pos hbad]
  refine ⟨h1, ?_, ?_⟩
  · intro now value d h
    cases value with
    | none => simp [parse_datetime] at h
    | some v =>
      simp only [parse_datetime] at h
      by_cases hraw : parseDatetimePre v = []
      · rw [if_pos hraw] at h
        cases h
      · rw [if_neg hraw] at h
        cases hv : parseDatetimeValue (parseDatetimePre v) with
        | none => rw [hv] at h; cases h
        | some parsed =>
          rw [hv] at h
          dsimp only at h
          by_cases hbad : parsed.year < 1970 ∨
              epochOf parsed > epochOf now + 370 * 86400
          · rw [if_pos hbad] at h; cases h
          · rw [if_neg hbad] at h
            cases h
            push_neg at hbad
            exact ⟨by omega, hbad.2⟩
  · intro now
    exact h1 now (pstr "1969-05-03") ⟨1969, 5, 3, 0, 0, 0⟩ (by decide)
      (Or.inl (by decide))

/-- Witness for `C9_parse_datetime_window`: a concrete more-than-370-days
future date rejected relative to a concrete "now". -/
theorem C9_parse_datetime_window_witness :
    parse_datetime ⟨2026, 10, 12, 0, 0, 0⟩ (some (pstr "2099-01-01")) = none :=
  C9_parse_datetime_window.1 ⟨2026, 10, 12, 0, 0, 0⟩ (pstr "2099-01-01")
    ⟨2099, 1, 1, 0, 0, 0⟩ (by decide) (Or.inr (by decide))

/-- **C6.** Invoking the analysis job on an item whose status is not
`pending` (in particular `running`) is a no-op: the world — the note row,
the AnalysisResult rows, commit/rollback counts, and the fetch/LLM call
trace — is returned unchanged. -/
theorem C6_non_pending_noop
    (fetch : Except PStr (Option PStr × PStr × Option PDateTime))
    (apiKey : Bool) (analyze : Bool → Except LLMClientError LLMAnalysisResult)
    (provider : String) (elapsed : Nat) (w : NoteWorld) (note : NoteRec)
    (hn : w.note = some note) (hs : note.analysis_status ≠ "pending") :
    run_analysis_job fetch apiKey analyze provider elapsed w = w := by
  simp only [run_analysis_job, hn]
  rw [if_pos hs]

/-- Witness for `C6_non_pending_noop`: a concrete `running` note. -/
theorem C6_non_pending_noop_witness :
    run_analysis_job (.error (pstr "x")) true
      (fun _ => .error ⟨"llm_timeout", []⟩) "openai" 5
      ⟨some ⟨1, "running", none, none, [], [], "public"⟩, [], 0, 0, 0, []⟩ =
      ⟨some ⟨1, "running", none, none, [], [], "public"⟩, [], 0, 0, 0, []⟩ :=
  C6_non_pending_noop _ _ _ _ _ _ ⟨1, "running", none, none, [], [], "public"⟩
    rfl (by decide)

/-- **C2 counterexample.** An error with code `llm_invalid_response` on the
first `analyze` call triggers **no** repair-mode call in either service
(the claim demanded exactly one additional `repair_mode=True` call for
this response-category code): only the initial `repair_mode=False` call is
made. -/
theorem C2_response_retry_counterexample :
    (analyze_source_with_llm
        (fun _ => .error ⟨"llm_invalid_response", pstr "模型服务响应解析失败"⟩)
        none none "openai").1 = [false] ∧
    (analyze_with_model
        (fun _ => .error ⟨"llm_invalid_response", pstr "模型服务响应解析失败"⟩)).1 =
      [false] ∧
    ([false] : List Bool) ≠ [false, true] := by
  refine ⟨?_, ?_, by decide⟩ <;> rfl

/-- **C2 (amended).** Only an `LLMClientError` with code `invalid_output`
on the first `analyze` call triggers exactly one additional
`analyze(repair_mode=True)` call, with no further retry after it; an error
with any other code (including `llm_invalid_response`) is re-raised at
once with the same code, with no repair-mode call; a successful first call
makes no further call either.  This holds for both the note service and
the aggregation service. -/
theorem C2_response_retry_amended
    (analyze : Bool → Except LLMClientError LLMAnalysisResult)
    (t : Option PStr) (p : Option PDateTime) (m : String) :
    (∀ e, analyze false = .error e →
      (e.code = "invalid_output" →
        (analyze_source_with_llm analyze t p m).1 = [false, true] ∧
        (analyze_with_model analyze).1 = [false, true]) ∧
      (e.code ≠ "invalid_output" →
        (analyze_source_with_llm analyze t p m).1 = [false] ∧
        (analyze_source_with_llm analyze t p m).2 =
          .error (.analysisError e.code e.message) ∧
        (analyze_with_model analyze).1 = [false])) ∧
    (∀ r, analyze false = .ok r →
      (analyze_source_with_llm analyze t p m).1 = [false] ∧
      (analyze_with_model analyze).1 = [false]) := by
  constructor
  · intro e he
    constructor
    · intro hcode
      simp only [analyze_source_with_llm, analyze_with_model, he]
      rw [if_neg (by simp [hcode]), if_neg (by simp [hcode])]
      cases h2 : analyze true <;> simp
    · intro hcode
      simp only [analyze_source_with_llm, analyze_with_model, he]
      rw [if_pos hcode, if_pos hcode]
      simp
  · intro r hr
    simp only [analyze_source_with_llm, analyze_with_model, hr]
    simp

/-- Witness for `C2_response_retry_amended`: a concrete `invalid_output`
failure makes exactly the calls `[repair_mode=False, repair_mode=True]`. -/
theorem C2_response_retry_amended_witness :
    (analyze_source_with_llm
        (fun _ => .error ⟨"invalid_output", pstr "bad"⟩) none none
        "openai").1 = [false, true] :=
  (((C2_response_retry_amended
      (fun _ => .error ⟨"invalid_output", pstr "bad"⟩) none none "openai").1
    ⟨"invalid_output", pstr "bad"⟩ rfl).1 rfl).1

/-- **C1 (code bug).** When fetching succeeds with non-empty content, the
API key is configured, and the first `analyze` call returns a result
(no `LLMClientError`), the orchestrator does **not** complete the success
path: `_build_source_analysis` evaluates `result.summary` on the
`LLMAnalysisResult` slots dataclass, which has no `summary` attribute
(its fields are `summary_short`/`summary_long`), so an `AttributeError`
is raised and the job records a `failed` AnalysisResult with code
`analysis_error` / class `AttributeError` and sets the item to `failed`. -/
theorem C1_success_path_attribute_error
    (title : Option PStr) (content : PStr) (inferred : Option PDateTime)
    (analyze : Bool → Except LLMClientError LLMAnalysisResult)
    (result : LLMAnalysisResult) (provider : String) (elapsed : Nat)
    (w : NoteWorld) (note : NoteRec)
    (hn : w.note = some note) (hs : note.analysis_status = "pending")
    (hc : content ≠ [])
    (ha : analyze false = .ok result)
    (htags : result.tags ≠ [])
    (hzh : result.source_language = "zh" ∨ result.tags_zh.getD [] ≠ []) :
    run_analysis_job (.ok (title, content, inferred)) true analyze provider
        elapsed w =
      { w with
        note := some { note with
                       analysis_status := "failed",
                       analysis_error := some
                         (pstr "LLMAnalysisResult object has no attribute summary") },
        summaries := w.summaries ++
          [{ status := "failed", source_language := none, output_title := none,
             output_title_zh := none, published_at := none,
             output_summary := none, output_summary_zh := none,
             output_tags := none, output_tags_zh := none, summary_text := none,
             error_code := some "analysis_error",
             error_message :=
               some (pstr "LLMAnalysisResult object has no attribute summary"),
             error_stage := some "unknown",
             error_class := some "AttributeError", retryable := some false,
             elapsed_ms := some elapsed }],
        commits := w.commits + 2,
        rollbacks := w.rollbacks + 1,
        fetchCalls := w.fetchCalls + 1,
        llmCalls := w.llmCalls ++ [false] } := by
  have hbuild : build_source_analysis result title inferred provider none =
      .error (.attributeError "LLMAnalysisResult" "summary") := by
    unfold build_source_analysis
    rw [if_neg (by simp [List.take_eq_nil_iff, htags, MAX_ANALYSIS_TAGS])]
    rcases hzh with hlang | htz
    · rw [if_neg (by simp [hlang])]
    · rw [if_neg (by simp [List.take_eq_nil_iff, htz, MAX_ANALYSIS_TAGS])]
  simp only [run_analysis_job, hn]
  rw [if_neg (by simp [hs])]
  simp only [analyze_source_with_llm, ha]
  rw [hbuild]
  simp only [build_failure_diagnostic, AnalysisExc.excClassName,
    AnalysisExc.excMessage, mark_analysis_failed]
  rw [if_neg hc]
  have hmsg1 :
      pyStrip (pstr ("LLMAnalysisResult" ++ " object has no attribute " ++
        "summary")) =
      pstr "LLMAnalysisResult object has no attribute summary" := by decide
  simp only [hmsg1]
  have h2 : (pstr "LLMAnalysisResult object has no attribute summary") ≠
      ([] : PStr) := by decide
  simp only [if_neg h2]
  have h3 :
      (pyStrip (pstr "LLMAnalysisResult object has no attribute summary")).take
        500 = pstr "LLMAnalysisResult object has no attribute summary" := by
    decide
  simp only [h3]
  have h4 : is_retryable_message
      (pstr "LLMAnalysisResult object has no attribute summary") = false := by
    decide
  simp only [h4]
  rfl

/-- Witness for `C1_success_path_attribute_error`: a concrete pending note,
successful fetch and successful `analyze`, ending in a `failed` row with
class `AttributeError`. -/
theorem C1_success_path_attribute_error_witness :
    run_analysis_job (.ok (none, pstr "content", none)) true
      (fun _ => .ok ⟨"zh", none, none, none, pstr "短摘要", some (pstr "短摘要"),
        pstr "长摘要", some (pstr "长摘要"), [pstr "tag1"], some [pstr "tag1"],
        none, none, none, []⟩)
      "openai" 7 ⟨some ⟨1, "pending", none, none, [], [], "public"⟩, [], 0, 0, 0, []⟩ =
      ⟨some ⟨1, "failed",
          some (pstr "LLMAnalysisResult object has no attribute summary"),
          none, [], [], "public"⟩,
        [⟨"failed", none, none, none, none, none, none, none, none, none,
          some "analysis_error",
          some (pstr "LLMAnalysisResult object has no attribute summary"),
          some "unknown", some "AttributeError", some false, some 7⟩],
        2, 1, 1, [false]⟩ :=
  C1_success_path_attribute_error none (pstr "content") none _
    ⟨"zh", none, none, none, pstr "短摘要", some (pstr "短摘要"),
      pstr "长摘要", some (pstr "长摘要"), [pstr "tag1"], some [pstr "tag1"],
      none, none, none, []⟩
    "openai" 7 _ ⟨1, "pending", none, none, [], [], "public"⟩ rfl rfl
    (by decide) rfl (by decide) (Or.inl rfl)

theorem requestLoop_spec {α : Type} (outcomes : Nat → AttemptOutcome α)
    (retries : Nat) :
    ∀ fuel attempt, retries + 1 - attempt ≤ fuel → 1 ≤ attempt →
    attempt ≤ retries →
    attempt ≤ (requestLoop outcomes retries attempt).attemptsUsed ∧
    (requestLoop outcomes retries attempt).attemptsUsed ≤ retries ∧
    (requestLoop outcomes retries attempt).sleeps =
      (List.range' attempt
        ((requestLoop outcomes retries attempt).attemptsUsed - attempt)).map
        backoffSeconds ∧
    (∀ i, attempt ≤ i → i < (requestLoop outcomes retries attempt).attemptsUsed →
      (outcomes i).retriable = true) ∧
    finalOutcomeResult (outcomes (requestLoop outcomes retries attempt).attemptsUsed)
      (requestLoop outcomes retries attempt).result ∧
    (∀ i, attempt ≤ i → i ≤ (requestLoop outcomes retries attempt).attemptsUsed →
      (outcomes i).retriable = false →
      (requestLoop outcomes retries attempt).attemptsUsed = i) := by
  intro fuel
  induction fuel with
  | zero => intro attempt hf h1 h2; omega
  | succ f ih =>
    intro attempt hf h1 h2
    rw [requestLoop]
    rw [if_neg (by omega)]
    cases h : outcomes attempt with
    | success d =>
      dsimp only
      refine ⟨le_refl _, h2, by simp, ?_, ?_, ?_⟩
      · intro i hi1 hi2; omega
      · rw [h]; rfl
      · intro i hi1 hi2 _; omega
    | httpError c =>
      dsimp only
      by_cases hret : TRANSIENT_HTTP_STATUS.contains c ∧ attempt < retries
      · rw [if_pos hret]
        obtain ⟨ha1, ha2, hs, hr, hfin, hstop⟩ :=
          ih (attempt + 1) (by omega) (by omega) (by omega)
        refine ⟨by simpa using by omega, by simpa using ha2, ?_, ?_, hfin, ?_⟩
        · show backoffSeconds attempt :: _ = _
          rw [hs]
          have : (requestLoop outcomes retries (attempt + 1)).attemptsUsed -
              attempt =
              ((requestLoop outcomes retries (attempt + 1)).attemptsUsed -
                (attempt + 1)) + 1 := by omega
          rw [this, List.range'_succ]
          rfl
        · intro i hi1 hi2
          rcases Nat.eq_or_lt_of_le hi1 with heq | hlt
          · subst heq
            rw [h]
            simp only [AttemptOutcome.retriable]
            exact hret.1
          · exact hr i hlt hi2
        · intro i hi1 hi2 hbad
          rcases Nat.eq_or_lt_of_le hi1 with heq | hlt
          · subst heq
            rw [h] at hbad
            simp only [AttemptOutcome.retriable] at hbad
            rw [hret.1] at hbad
            cases hbad
          · exact hstop i hlt hi2 hbad
      · rw [if_neg hret]
        refine ⟨le_refl _, h2, by simp, ?_, ?_, ?_⟩
        · intro i hi1 hi2; dsimp only at hi2; omega
        · rw [h]; exact ⟨_, rfl, rfl⟩
        · intro i hi1 hi2 _; dsimp only at hi2 ⊢; omega
    | urlError =>
      dsimp only
      by_cases hret : attempt < retries
      · rw [if_pos hret]
        obtain ⟨ha1, ha2, hs, hr, hfin, hstop⟩ :=
          ih (attempt + 1) (by omega) (by omega) (by omega)
        refine ⟨by simpa using by omega, by simpa using ha2, ?_, ?_, hfin, ?_⟩
        · show backoffSeconds attempt :: _ = _
          rw [hs]
          have : (requestLoop outcomes retries (attempt + 1)).attemptsUsed -
              attempt =
              ((requestLoop outcomes retries (attempt + 1)).attemptsUsed -
                (attempt + 1)) + 1 := by omega
          rw [this, List.range'_succ]
          rfl
        · intro i hi1 hi2
          rcases Nat.eq_or_lt_of_le hi1 with heq | hlt
          · subst heq; simp [AttemptOutcome.retriable, h]
          · exact hr i hlt hi2
        · intro i hi1 hi2 hbad
          rcases Nat.eq_or_lt_of_le hi1 with heq | hlt
          · subst heq
            rw [h] at hbad
            simp [AttemptOutcome.retriable] at hbad
          · exact hstop i hlt hi2 hbad
      · rw [if_neg hret]
        refine ⟨le_refl _, h2, by simp, ?_, ?_, ?_⟩
        · intro i hi1 hi2; dsimp only at hi2; omega
        · rw [h]; exact ⟨_, rfl, rfl⟩
        · intro i hi1 hi2 _; dsimp only at hi2 ⊢; omega
    | timeoutError =>
      dsimp only
      by_cases hret : attempt < retries
      · rw [if_pos hret]
        obtain ⟨ha1, ha2, hs, hr, hfin, hstop⟩ :=
          ih (attempt + 1) (by omega) (by omega) (by omega)
        refine ⟨by simpa using by omega, by simpa using ha2, ?_, ?_, hfin, ?_⟩
        · show backoffSeconds attempt :: _ = _
          rw [hs]
          have : (requestLoop outcomes retries (attempt + 1)).attemptsUsed -
              attempt =
              ((requestLoop outcomes retries (attempt + 1)).attemptsUsed -
                (attempt + 1)) + 1 := by omega
          rw [this, List.range'_succ]
          rfl
        · intro i hi1 hi2
          rcases Nat.eq_or_lt_of_le hi1 with heq | hlt
          · subst heq; simp [AttemptOutcome.retriable, h]
          · exact hr i hlt hi2
        · intro i hi1 hi2 hbad
          rcases Nat.eq_or_lt_of_le hi1 with heq | hlt
          · subst heq
            rw [h] at hbad
            simp [AttemptOutcome.retriable] at hbad
          · exact hstop i hlt hi2 hbad
      · rw [if_neg hret]
        refine ⟨le_refl _, h2, by simp, ?_, ?_, ?_⟩
        · intro i hi1 hi2; dsimp only at hi2; omega
        · rw [h]; exact ⟨_, rfl, rfl⟩
        · intro i hi1 hi2 _; dsimp only at hi2 ⊢; omega
    | jsonDecodeError =>
      dsimp only
      refine ⟨le_refl _, h2, by simp, ?_, ?_, ?_⟩
      · intro i hi1 hi2; omega
      · rw [h]; exact ⟨_, rfl, rfl⟩
      · intro i hi1 hi2 _; omega

/-- **C4.** `_request_with_retry` makes at most `max(1, llm_max_retries)`
attempts; between attempts it sleeps `min(8, 2^(attempt-1))` seconds;
every non-final attempt ended in a transient outcome (HTTP
429/500/502/503/504, timeout, or network error); the final attempt
determines the outcome (`llm_http_error` for an HTTP error,
`llm_network_error`, `llm_timeout`, `llm_invalid_response` for a JSON
response-parse failure); and any reached non-transient outcome — a
non-transient HTTP status or a JSON parse error — stops the loop at that
very attempt, with no further attempt. -/
theorem C4_request_with_retry {α : Type} (llmMaxRetries : Nat)
    (outcomes : Nat → AttemptOutcome α) :
    (request_with_retry llmMaxRetries outcomes).attemptsUsed ≤
      max 1 llmMaxRetries ∧
    1 ≤ (request_with_retry llmMaxRetries outcomes).attemptsUsed ∧
    (request_with_retry llmMaxRetries outcomes).sleeps =
      (List.range' 1
        ((request_with_retry llmMaxRetries outcomes).attemptsUsed - 1)).map
        (fun i => min 8 (2 ^ (i - 1))) ∧
    (∀ i, 1 ≤ i →
      i < (request_with_retry llmMaxRetries outcomes).attemptsUsed →
      (outcomes i).retriable = true) ∧
    finalOutcomeResult
      (outcomes (request_with_retry llmMaxRetries outcomes).attemptsUsed)
      (request_with_retry llmMaxRetries outcomes).result ∧
    (∀ i, 1 ≤ i →
      i ≤ (request_with_retry llmMaxRetries outcomes).attemptsUsed →
      (outcomes i).retriable = false →
      (request_with_retry llmMaxRetries outcomes).attemptsUsed = i) := by
  obtain ⟨h1, h2, h3, h4, h5, h6⟩ :=
    requestLoop_spec outcomes (max 1 llmMaxRetries) (max 1 llmMaxRetries) 1
      (by omega) (by omega) (by omega)
  exact ⟨h2, h1, h3, h4, h5, h6⟩

/-- Witness for `C4_request_with_retry`: a JSON parse error on the first
attempt stops after exactly one attempt even with a budget of 3. -/
theorem C4_request_with_retry_witness :
    (request_with_retry 3
      (fun _ => AttemptOutcome.jsonDecodeError (α := Nat))).attemptsUsed = 1 :=
  (C4_request_with_retry 3 _).2.2.2.2.2 1 (by omega)
    (C4_request_with_retry 3 _).2.1 (by decide)

/-- **C8.** LLM output validation: when the detected source language is
`zh` and the zh-prefixed fields are absent, they default to the original
fields (`summary_short_zh == summary_short`, `summary_long_zh ==
summary_long`, `title_zh == title`, `tags_zh == tags`); when the detected
source language is `non-zh` and the zh tags (or zh summaries) are absent,
parsing fails with code `invalid_output`. -/
theorem C8_parse_result_zh_defaults :
    (∀ (now : PDateTime) (mn : Option PStr) (it ot : Option Int)
        (raw o : Output) (s l : PStr),
      parsedSourceLanguage o = "zh" →
      parsedSummaryPair o = (some s, some l) →
      parsedTags o ≠ [] →
      parsedZhSummaryPair o = (none, none) →
      normalize_title (outGetOr o ["title_zh", "titleZh", "translated_title"]) =
        none →
      parsedTagsZh o = [] →
      parse_result_output now mn it ot raw o = .ok
        { source_language := "zh"
          title := normalize_title (outGetOr o ["title"])
          title_zh := normalize_title (outGetOr o ["title"])
          published_at := parse_datetime now
            (normalize_optional_string
              (outGetOr o ["published_at", "publishedAt", "publish_time"]))
          summary_short := s
          summary_short_zh := some s
          summary_long := l
          summary_long_zh := some l
          tags := parsedTags o
          tags_zh := some (parsedTags o)
          model_name := mn
          input_tokens := it
          output_tokens := ot
          raw_response := raw }) ∧
    (∀ (now : PDateTime) (mn : Option PStr) (it ot : Option Int)
        (raw o : Output),
      parsedSourceLanguage o = "non-zh" →
      (parsedTagsZh o = [] ∨ (parsedZhSummaryPair o).1 = none ∨
        (parsedZhSummaryPair o).2 = none) →
      exceptErrCode (parse_result_output now mn it ot raw o) =
        some "invalid_output") := by
  constructor
  · intro now mn it ot raw o s l hlang hpair htags hzh htzh htagszh
    unfold parse_result_output
    rw [hlang, hpair]
    dsimp only
    rw [if_neg (by simp)]
    rw [if_neg htags]
    rw [if_neg (by simp)]
    rw [hzh, htzh, htagszh]
    simp
  · intro now mn it ot raw o hlang hmiss
    unfold parse_result_output
    rcases hp1 : (parsedSummaryPair o).1 with _ | s
    · rcases hp : parsedSummaryPair o with ⟨p1, p2⟩
      rw [hp] at hp1
      subst hp1
      dsimp only
      cases p2 <;> rfl
    · rcases hp : parsedSummaryPair o with ⟨p1, p2⟩
      rw [hp] at hp1
      subst hp1
      cases p2 with
      | none => rfl
      | some l =>
        dsimp only
        rw [hlang]
        by_cases hA : (("non-zh" : String) = "non-zh") ∧
            ((parsedZhSummaryPair o).1 = none ∨ (parsedZhSummaryPair o).2 = none)
        · rw [if_pos hA]; rfl
        · rw [if_neg hA]
          by_cases hB : parsedTags o = []
          · rw [if_pos hB]; rfl
          · rw [if_neg hB]
            have htz : parsedTagsZh o = [] := by
              rcases hmiss with h | h | h
              · exact h
              · exact absurd ⟨rfl, Or.inl h⟩ hA
              · exact absurd ⟨rfl, Or.inr h⟩ hA
            rw [if_pos ⟨rfl, htz⟩]
            rfl

/-- Witness for `C8_parse_result_zh_defaults`: the spec's concrete zh
example (a `summary` field and no zh fields) defaults the zh summary to
the original summary. -/
theorem C8_parse_result_zh_defaults_witness :
    parse_result_output ⟨2026, 10, 12, 0, 0, 0⟩ (some (pstr "gpt-4o-mini"))
      (some 12) (some 6) []
      [(pstr "source_language", .jstr (pstr "zh")),
       (pstr "title", .jstr (pstr "中文标题")),
       (pstr "summary", .jstr (pstr "中文摘要")),
       (pstr "tags", .jlist [.istr (pstr "大模型"), .istr (pstr "智能体")])] = .ok
      { source_language := "zh"
        title := some (pstr "中文标题")
        title_zh := some (pstr "中文标题")
        published_at := none
        summary_short := pstr "中文摘要"
        summary_short_zh := some (pstr "中文摘要")
        summary_long := pstr "中文摘要"
        summary_long_zh := some (pstr "中文摘要")
        tags := [pstr "大模型", pstr "智能体"]
        tags_zh := some [pstr "大模型", pstr "智能体"]
        model_name := some (pstr "gpt-4o-mini")
        input_tokens := some 12
        output_tokens := some 6
        raw_response := [] } := by
  have h := C8_parse_result_zh_defaults.1 ⟨2026, 10, 12, 0, 0, 0⟩
    (some (pstr "gpt-4o-mini")) (some 12) (some 6) []
    [(pstr "source_language", .jstr (pstr "zh")),
     (pstr "title", .jstr (pstr "中文标题")),
     (pstr "summary", .jstr (pstr "中文摘要")),
     (pstr "tags", .jlist [.istr (pstr "大模型"), .istr (pstr "智能体")])]
    (pstr "中文摘要") (pstr "中文摘要")
    (by decide) (by decide) (by decide) (by decide) (by decide) (by decide)
  exact h.trans (congrArg Except.ok (by decide))

theorem collectFeedLoop_eq (sourceDomain : PStr) (now : PDateTime)
    (maxItems : Nat) :
    ∀ (entries : List RawFeedEntry) (seen : List PStr)
      (acc : List FeedEntryCandidate), acc.length < maxItems →
      collectFeedLoop sourceDomain now maxItems entries seen acc =
        (acc ++ dedupCandidates seen
          (entries.filterMap (feedEntryCandidate sourceDomain now))).take
          maxItems := by
  intro entries
  induction entries with
  | nil =>
    intro seen acc h
    simp only [collectFeedLoop, List.filterMap_nil, dedupCandidates,
      List.append_nil]
    exact (take_all_of_le _ _ (by omega)).symm
  | cons e rest ih =>
    intro seen acc h
    simp only [collectFeedLoop, List.filterMap_cons]
    cases hc : feedEntryCandidate sourceDomain now e with
    | none => exact ih seen acc h
    | some cand =>
      dsimp only
      by_cases hseen : seen.contains cand.source_url
      · rw [if_pos hseen]
        simp only [dedupCandidates, if_pos hseen]
        exact ih seen acc h
      · rw [if_neg hseen]
        simp only [dedupCandidates, if_neg hseen]
        by_cases hfull : maxItems ≤ (acc ++ [cand]).length
        · rw [if_pos hfull]
          have hlen : (acc ++ [cand]).length = maxItems := by
            simp at hfull ⊢; omega
          rw [show acc ++ cand :: dedupCandidates (seen ++ [cand.source_url])
                (rest.filterMap (feedEntryCandidate sourceDomain now)) =
              (acc ++ [cand]) ++ dedupCandidates (seen ++ [cand.source_url])
                (rest.filterMap (feedEntryCandidate sourceDomain now)) by simp]
          rw [← hlen]
          exact (List.take_left _ _).symm
        · rw [if_neg hfull]
          rw [ih (seen ++ [cand.source_url]) (acc ++ [cand]) (by simp at hfull ⊢; omega)]
          simp

/-- **C7.** Feed entry collection filters and truncates deterministically:
entries with empty or skip-prefixed links, entries whose URL fails
normalization, entries whose host does not match the source domain,
asset-suffixed entries, and entries whose normalized URL was already seen
are dropped; the survivors keep feed order and are truncated to
`max(1, aggregation_max_items_per_source)`; with the §8 example list and
`max_items = 2` exactly the two expected entries are produced. -/
theorem C7_collect_feed_entries :
    (∀ (sourceDomain : PStr) (now : PDateTime) (maxSetting : Nat)
        (raws : List RawFeedEntry),
      collect_feed_entries sourceDomain now maxSetting raws =
        (if (dedupCandidates []
              (raws.filterMap (feedEntryCandidate sourceDomain now))).take
              (max 1 maxSetting) = [] then .error ()
         else .ok ((dedupCandidates []
            (raws.filterMap (feedEntryCandidate sourceDomain now))).take
            (max 1 maxSetting)))) ∧
    collect_feed_entries (pstr "example.com") ⟨2026, 10, 12, 0, 0, 0⟩ 2
      [⟨some (pstr "javascript:void(0)"), none, none⟩,
       ⟨some (pstr "https://other.com/post"), none, none⟩,
       ⟨some (pstr "https://example.com/pic.jpg"), none, none⟩,
       ⟨some (pstr "https://example.com/post?a=1&utm_source=rss"), none, none⟩,
       ⟨some (pstr "https://example.com/post?a=1"), none, none⟩,
       ⟨some (pstr "https://example.com/other?x=2&fbclid=abc"), none, none⟩] =
      .ok [⟨pstr "https://example.com/post?a=1", none, none⟩,
           ⟨pstr "https://example.com/other?x=2", none, none⟩] := by
  constructor
  · intro sourceDomain now maxSetting raws
    unfold collect_feed_entries
    rw [collectFeedLoop_eq sourceDomain now (max 1 maxSetting) raws [] []
      (by simp)]
    simp
  · rfl

theorem lowerChar_idem (c : Nat) : lowerChar (lowerChar c) = lowerChar c := by
  unfold lowerChar
  by_cases h : 65 ≤ c ∧ c ≤ 90
  · rw [if_pos h, if_neg (by omega)]
  · rw [if_neg h, if_neg h]

theorem pyLower_idem (s : PStr) : pyLower (pyLower s) = pyLower s := by
  unfold pyLower
  rw [List.map_map]
  apply List.map_congr_left
  intro c _
  exact lowerChar_idem c

theorem hostOfSplit_lower (p : SplitResult) :
    pyLower (hostOfSplit p) = hostOfSplit p := by
  unfold hostOfSplit
  exact pyLower_idem _

theorem claimPath_head (path : PStr) :
    claimPath path ≠ [] ∧ (claimPath path).headD 0 = 47 := by
  unfold claimPath
  dsimp only
  cases path with
  | nil => simp
  | cons c t => by_cases h2 : c = 47 <;> simp [h2]

theorem pstr_sep_eval : pstr "://" = [58, 47, 47] := rfl

theorem urlunsplit_canonical (scheme netloc path query : PStr)
    (hsch : scheme ≠ []) (hn : netloc ≠ []) (hp : path ≠ [])
    (hph : path.headD 0 = 47) :
    urlunsplitE scheme netloc path query [] =
      scheme ++ [58, 47, 47] ++ netloc ++ path ++
        (if query = [] then [] else [63] ++ query) := by
  unfold urlunsplitE
  by_cases hq : query = []
  · simp [hn, hsch, hph, hq, List.append_assoc]
    intro _
    simpa using hph
  · simp [hn, hsch, hph, hq, List.append_assoc]
    intro _
    simpa using hph

theorem claimHostPart_ne_nil (host : PStr) (hhost : host ≠ []) :
    claimHostPart host ≠ [] := by
  unfold claimHostPart
  split <;> simp [hhost]

theorem note_generic_reassemble (parsed : SplitResult) (host : PStr)
    (port : Option Nat) (hsch : pyLower parsed.scheme ≠ [])
    (hhost : host ≠ []) :
    note_normalize_generic_url parsed host port =
      claimReassemble (pyLower parsed.scheme) (claimHostPart host)
        (keptPort (pyLower parsed.scheme) port) (claimPath parsed.path)
        parsed.query := by
  have hcp := claimPath_head parsed.path
  have hhp := claimHostPart_ne_nil host hhost
  show urlunsplitE (pyLower parsed.scheme)
      (match port with
       | some p =>
         if p ≠ 0 ∧ defaultPortOf (pyLower parsed.scheme) ≠ some p then
           claimHostPart host ++ [58] ++ natToDec p
         else claimHostPart host
       | none => claimHostPart host)
      (claimPath parsed.path) parsed.query [] = _
  unfold claimReassemble keptPort
  cases port with
  | none =>
    dsimp only
    rw [urlunsplit_canonical _ _ _ _ hsch hhp hcp.1 hcp.2]
    simp [pstr_sep_eval, List.append_assoc]
  | some p =>
    dsimp only
    by_cases hk : p ≠ 0 ∧ defaultPortOf (pyLower parsed.scheme) ≠ some p
    · rw [if_pos hk, if_pos hk]
      dsimp only
      rw [urlunsplit_canonical _ _ _ _ hsch (by simp [hhp]) hcp.1 hcp.2]
      simp [pstr_sep_eval, List.append_assoc]
    · rw [if_neg hk, if_neg hk]
      dsimp only
      rw [urlunsplit_canonical _ _ _ _ hsch hhp hcp.1 hcp.2]
      simp [pstr_sep_eval, List.append_assoc]

theorem agg_generic_reassemble (parsed : SplitResult) (host : PStr)
    (port : Option Nat) (hsch : pyLower parsed.scheme ≠ [])
    (hhost : host ≠ []) :
    agg_normalize_generic_url parsed host port =
      claimReassemble (pyLower parsed.scheme) (claimHostPart host)
        (keptPort (pyLower parsed.scheme) port) (claimPath parsed.path)
        (strip_tracking_query parsed.query) := by
  have hcp := claimPath_head parsed.path
  have hhp := claimHostPart_ne_nil host hhost
  show urlunsplitE (pyLower parsed.scheme)
      (match port with
       | some p =>
         if p ≠ 0 ∧ defaultPortOf (pyLower parsed.scheme) ≠ some p then
           claimHostPart host ++ [58] ++ natToDec p
         else claimHostPart host
       | none => claimHostPart host)
      (claimPath parsed.path) (strip_tracking_query parsed.query) [] = _
  unfold claimReassemble keptPort
  cases port with
  | none =>
    dsimp only
    rw [urlunsplit_canonical _ _ _ _ hsch hhp hcp.1 hcp.2]
    simp [pstr_sep_eval, List.append_assoc]
  | some p =>
    dsimp only
    by_cases hk : p ≠ 0 ∧ defaultPortOf (pyLower parsed.scheme) ≠ some p
    · rw [if_pos hk, if_pos hk]
      dsimp only
      rw [urlunsplit_canonical _ _ _ _ hsch (by simp [hhp]) hcp.1 hcp.2]
      simp [pstr_sep_eval, List.append_assoc]
    · rw [if_neg hk, if_neg hk]
      dsimp only
      rw [urlunsplit_canonical _ _ _ _ hsch hhp hcp.1 hcp.2]
      simp [pstr_sep_eval, List.append_assoc]

/-- **C3** is false as stated: the claim covers both normalizers, but the
note-creation normalizer (`NoteService._normalize_source_url` /
`_normalize_generic_url`) keeps the query verbatim — on the claim's own
example URL it returns `https://example.com/post?a=1&utm_source=wechat&fbclid=xx`
(host lower-cased, default port 443 dropped, tracking parameters kept),
which differs from the claimed `https://example.com/post?a=1`. -/
theorem C3_tracking_query_counterexample :
    note_normalize_source_url [] []
        (pstr "https://Example.com:443/post?a=1&utm_source=wechat&fbclid=xx") =
      .ok (pstr "https://Example.com:443/post?a=1&utm_source=wechat&fbclid=xx",
        pstr "https://example.com/post?a=1&utm_source=wechat&fbclid=xx",
        pstr "example.com") ∧
    pstr "https://example.com/post?a=1&utm_source=wechat&fbclid=xx" ≠
      pstr "https://example.com/post?a=1" :=
  ⟨rfl, by decide⟩

/-- **C3** (amended).  Both normalizers lower-case the scheme and host and
drop a zero or scheme-default port, but only the aggregation normalizer
strips `utm_*`/denylist tracking query parameters; the note normalizer
keeps the query verbatim.  (a) On the claim's example the aggregation
normalizer yields host `example.com` and `https://example.com/post?a=1`;
(b) for every parsed URL, non-empty lower-cased scheme and non-empty host,
the aggregation generic normalizer reassembles
`scheme://host[:port]path?stripped-query` and the note generic normalizer
reassembles the same with the original query; (c) the host both services
pass in is already lower-cased. -/
theorem C3_tracking_query_amended :
    (agg_normalize_source_url
        (pstr "https://Example.com:443/post?a=1&utm_source=wechat&fbclid=xx") =
      .ok (pstr "https://Example.com:443/post?a=1&utm_source=wechat&fbclid=xx",
        pstr "https://example.com/post?a=1", pstr "example.com")) ∧
    (∀ (parsed : SplitResult) (host : PStr) (port : Option Nat),
      pyLower parsed.scheme ≠ [] → host ≠ [] →
      agg_normalize_generic_url parsed host port =
        claimReassemble (pyLower parsed.scheme) (claimHostPart host)
          (keptPort (pyLower parsed.scheme) port) (claimPath parsed.path)
          (strip_tracking_query parsed.query) ∧
      note_normalize_generic_url parsed host port =
        claimReassemble (pyLower parsed.scheme) (claimHostPart host)
          (keptPort (pyLower parsed.scheme) port) (claimPath parsed.path)
          parsed.query) ∧
    (∀ parsed : SplitResult, pyLower (hostOfSplit parsed) = hostOfSplit parsed) :=
  ⟨rfl,
   fun parsed host port hsch hhost =>
     ⟨agg_generic_reassemble parsed host port hsch hhost,
      note_generic_reassemble parsed host port hsch hhost⟩,
   hostOfSplit_lower⟩

/-- Instantiation of the amended C3 theorem at a concrete parsed URL. -/
theorem C3_tracking_query_amended_witness :
    pyLower (SplitResult.mk (pstr "https") (pstr "Example.com:443")
        (pstr "/post") (pstr "a=1&fbclid=xx") []).scheme ≠ [] ∧
    (pstr "example.com" : PStr) ≠ [] ∧
    agg_normalize_generic_url
        (SplitResult.mk (pstr "https") (pstr "Example.com:443")
          (pstr "/post") (pstr "a=1&fbclid=xx") [])
        (pstr "example.com") (some 443) =
      claimReassemble
        (pyLower (SplitResult.mk (pstr "https") (pstr "Example.com:443")
          (pstr "/post") (pstr "a=1&fbclid=xx") []).scheme)
        (claimHostPart (pstr "example.com"))
        (keptPort (pyLower (SplitResult.mk (pstr "https")
          (pstr "Example.com:443") (pstr "/post")
          (pstr "a=1&fbclid=xx") []).scheme) (some 443))
        (claimPath (SplitResult.mk (pstr "https") (pstr "Example.com:443")
          (pstr "/post") (pstr "a=1&fbclid=xx") []).path)
        (strip_tracking_query (SplitResult.mk (pstr "https")
          (pstr "Example.com:443") (pstr "/post")
          (pstr "a=1&fbclid=xx") []).query) :=
  ⟨by decide, by decide,
   (C3_tracking_query_amended.2.1
     (SplitResult.mk (pstr "https") (pstr "Example.com:443")
       (pstr "/post") (pstr "a=1&fbclid=xx") [])
     (pstr "example.com") (some 443) (by decide) (by decide)).1⟩

set_option maxRecDepth 4000

theorem validStr_cons (c : Nat) (l : PStr) :
    ValidStr (c :: l) = (ValidChar c && ValidStr l) := rfl

theorem validChar_eq (c : Nat) :
    (ValidChar c = true) ↔ (c < 1114112 ∧ ¬(55296 ≤ c ∧ c ≤ 57343)) := by
  unfold ValidChar
  simp
  omega

theorem isUtf8Cont_eq (b : Nat) :
    (isUtf8Cont b = true) ↔ (128 ≤ b ∧ b ≤ 191) := by
  unfold isUtf8Cont
  simp

theorem utf8Step_len (b : Nat) (rest : List Nat) :
    (utf8Step b rest).2.length ≤ rest.length := by
  unfold utf8Step
  rcases rest with _ | ⟨b1, rest⟩
  · dsimp only
    split_ifs <;> simp
  · rcases rest with _ | ⟨b2, rest⟩
    · dsimp only
      split_ifs <;> simp
    · rcases rest with _ | ⟨b3, rest⟩
      · dsimp only
        split_ifs <;> simp <;> omega
      · dsimp only
        split_ifs <;> simp <;> omega

theorem utf8Step_valid (b : Nat) (rest : List Nat) :
    ValidChar (utf8Step b rest).1 = true := by
  unfold utf8Step
  rcases rest with _ | ⟨b1, rest⟩
  · dsimp only
    split_ifs <;> rw [validChar_eq] <;> omega
  · rcases rest with _ | ⟨b2, rest⟩
    · dsimp only
      split_ifs <;> simp only [isUtf8Cont_eq] at * <;> rw [validChar_eq] <;> omega
    · rcases rest with _ | ⟨b3, rest⟩
      · dsimp only
        split_ifs <;> simp only [isUtf8Cont_eq] at * <;> rw [validChar_eq] <;> omega
      · dsimp only
        split_ifs <;> simp only [isUtf8Cont_eq] at * <;> rw [validChar_eq] <;> omega

theorem utf8DecodeF_fuel : ∀ (f : Nat) (bs : List Nat), bs.length ≤ f →
    utf8DecodeF f bs = utf8Decode bs := by
  intro f
  induction f using Nat.strong_induction_on with
  | _ f ih =>
    intro bs h
    match f, bs with
    | f, [] => cases f <;> rfl
    | 0, b :: rest => simp at h
    | g + 1, b :: rest =>
      have hl := utf8Step_len b rest
      have hrest : rest.length ≤ g := by simp at h; omega
      show (utf8Step b rest).1 :: utf8DecodeF g (utf8Step b rest).2 =
        utf8Decode (b :: rest)
      have h2 : utf8Decode (b :: rest) =
          (utf8Step b rest).1 :: utf8DecodeF rest.length (utf8Step b rest).2 := rfl
      rw [h2, ih g (by omega) _ (by omega), ih rest.length (by omega) _ (by omega)]

theorem utf8Decode_cons (b : Nat) (rest : List Nat) :
    utf8Decode (b :: rest) =
      (utf8Step b rest).1 :: utf8Decode (utf8Step b rest).2 := by
  have h2 : utf8Decode (b :: rest) =
      (utf8Step b rest).1 :: utf8DecodeF rest.length (utf8Step b rest).2 := rfl
  rw [h2, utf8DecodeF_fuel _ _ (utf8Step_len b rest)]

set_option maxRecDepth 4000

theorem utf8Decode_valid_fuel : ∀ (n : Nat) (bs : List Nat), bs.length ≤ n →
    ValidStr (utf8Decode bs) = true := by
  intro n
  induction n with
  | zero =>
    intro bs h
    match bs with
    | [] => rfl
    | b :: rest => simp at h
  | succ n ih =>
    intro bs h
    match bs with
    | [] => rfl
    | b :: rest =>
      rw [utf8Decode_cons, validStr_cons, Bool.and_eq_true]
      refine ⟨utf8Step_valid b rest, ?_⟩
      exact ih _ (by have := utf8Step_len b rest; simp at h; omega)

theorem utf8Decode_valid (bs : List Nat) : ValidStr (utf8Decode bs) = true :=
  utf8Decode_valid_fuel bs.length bs le_rfl

theorem utf8EncodeChar_decode (c : Nat) (hc : ValidChar c = true) (bs : List Nat) :
    utf8Decode (utf8EncodeChar c ++ bs) = c :: utf8Decode bs := by
  rw [validChar_eq] at hc
  unfold utf8EncodeChar
  by_cases h1 : c < 128
  · rw [if_pos h1]
    rw [show ([c] ++ bs : List Nat) = c :: bs from rfl, utf8Decode_cons]
    unfold utf8Step
    rw [if_pos h1]
  · rw [if_neg h1]
    by_cases h2 : c < 2048
    · rw [if_pos h2]
      rw [show ([192 + c / 64, 128 + c % 64] ++ bs : List Nat) =
        (192 + c / 64) :: (128 + c % 64) :: bs from rfl, utf8Decode_cons]
      unfold utf8Step
      rw [if_neg (by omega), if_pos (by omega)]
      dsimp only
      rw [if_pos (by rw [isUtf8Cont_eq]; omega)]
      dsimp only
      congr 1
      omega
    · rw [if_neg h2]
      by_cases h3 : c < 65536
      · rw [if_pos h3]
        rw [show ([224 + c / 4096, 128 + c / 64 % 64, 128 + c % 64] ++ bs : List Nat) =
          (224 + c / 4096) :: (128 + c / 64 % 64) :: (128 + c % 64) :: bs from rfl,
          utf8Decode_cons]
        unfold utf8Step
        rw [if_neg (by omega), if_neg (by omega), if_pos (by omega)]
        dsimp only
        rw [if_pos (by refine ⟨by rw [isUtf8Cont_eq]; omega, by omega, by omega⟩)]
        rw [if_pos (by rw [isUtf8Cont_eq]; omega)]
        congr 1
        omega
      · rw [if_neg h3]
        rw [show ([240 + c / 262144, 128 + c / 4096 % 64, 128 + c / 64 % 64,
            128 + c % 64] ++ bs : List Nat) =
          (240 + c / 262144) :: (128 + c / 4096 % 64) :: (128 + c / 64 % 64) ::
            (128 + c % 64) :: bs from rfl, utf8Decode_cons]
        unfold utf8Step
        rw [if_neg (by omega), if_neg (by omega), if_neg (by omega),
          if_pos (by omega)]
        dsimp only
        rw [if_pos (by refine ⟨by rw [isUtf8Cont_eq]; omega, by omega, by omega⟩)]
        rw [if_pos (by rw [isUtf8Cont_eq]; omega)]
        rw [if_pos (by rw [isUtf8Cont_eq]; omega)]
        congr 1
        omega

theorem utf8Encode_decode (u : PStr) (hu : ValidStr u = true) :
    utf8Decode (utf8Encode u) = u := by
  induction u with
  | nil => rfl
  | cons c u ih =>
    rw [validStr_cons, Bool.and_eq_true] at hu
    rw [show utf8Encode (c :: u) = utf8EncodeChar c ++ utf8Encode u from
      List.flatMap_cons .., utf8EncodeChar_decode c hu.1, ih hu.2]

theorem unquoteAux_lit (c : Nat) (rest pend : List Nat) (hc : c ≠ 37) :
    unquoteAux (c :: rest) pend = utf8Decode pend ++ c :: unquoteAux rest [] := by
  conv_lhs => unfold unquoteAux
  split
  · rename_i a b r heq
    exact absurd (List.cons.inj heq).1 hc
  · rename_i a heq
    exact absurd (List.cons.inj heq).1 hc
  · rename_i heq
    exact absurd (List.cons.inj heq).1 hc
  · rename_i c2 rest2 heq
    obtain ⟨h1, h2⟩ := List.cons.inj heq
    subst h1
    subst h2
    rfl
  · rename_i heq
    exact absurd heq (by simp)

theorem unquoteAux_nil (pend : List Nat) :
    unquoteAux [] pend = utf8Decode pend := rfl

theorem hexUpperDigit_isHex (n : Nat) (h : n < 16) :
    isHexDigitChar (hexUpperDigit n) = true := by
  unfold hexUpperDigit isHexDigitChar isDigitChar
  split <;> simp <;> omega

theorem hexUpperDigit_val (n : Nat) (h : n < 16) :
    hexDigitVal (hexUpperDigit n) = n := by
  unfold hexUpperDigit hexDigitVal isDigitChar
  split_ifs <;> simp_all <;> omega

theorem unquoteAux_pct (b : Nat) (hb : b < 256) (rest pend : List Nat) :
    unquoteAux (pctByte b ++ rest) pend = unquoteAux rest (pend ++ [b]) := by
  show unquoteAux (37 :: hexUpperDigit (b / 16) :: hexUpperDigit (b % 16) :: rest)
      pend = unquoteAux rest (pend ++ [b])
  conv_lhs => unfold unquoteAux
  rw [if_pos ⟨hexUpperDigit_isHex _ (by omega), hexUpperDigit_isHex _ (by omega)⟩]
  rw [hexUpperDigit_val _ (by omega), hexUpperDigit_val _ (by omega)]
  have hbb : b / 16 * 16 + b % 16 = b := by omega
  rw [hbb]

theorem unquoteAux_pct_run (bytes : List Nat) (hb : ∀ b ∈ bytes, b < 256) :
    ∀ (rest pend : List Nat),
      unquoteAux (bytes.flatMap pctByte ++ rest) pend =
        unquoteAux rest (pend ++ bytes) := by
  induction bytes with
  | nil => intro rest pend; simp
  | cons b bytes ih =>
    intro rest pend
    rw [List.flatMap_cons, List.append_assoc,
      unquoteAux_pct b (hb b (by simp)) _ pend,
      ih (fun x hx => hb x (by simp [hx])) rest (pend ++ [b])]
    simp

theorem utf8EncodeChar_lt256 (c : Nat) (hc : ValidChar c = true) :
    ∀ b ∈ utf8EncodeChar c, b < 256 := by
  rw [validChar_eq] at hc
  unfold utf8EncodeChar
  split_ifs <;> intro b hb <;> simp at hb <;> omega

theorem validStr_append (u v : PStr) :
    ValidStr (u ++ v) = (ValidStr u && ValidStr v) := by
  simp [ValidStr, List.all_append]

theorem mapPlusChar_pct (b : Nat) (hb : b < 256) :
    (pctByte b).map (fun c => if c = 43 then 32 else c) = pctByte b := by
  show [if (37 : Nat) = 43 then 32 else 37,
    if hexUpperDigit (b / 16) = 43 then 32 else hexUpperDigit (b / 16),
    if hexUpperDigit (b % 16) = 43 then 32 else hexUpperDigit (b % 16)] = _
  rw [if_neg (by omega)]
  rw [if_neg (by unfold hexUpperDigit; split <;> omega)]
  rw [if_neg (by unfold hexUpperDigit; split <;> omega)]
  rfl

theorem mapPlus_pct_run (bytes : List Nat) (h : ∀ b ∈ bytes, b < 256) :
    (bytes.flatMap pctByte).map (fun c => if c = 43 then 32 else c) =
      bytes.flatMap pctByte := by
  induction bytes with
  | nil => rfl
  | cons b bytes ih =>
    rw [List.flatMap_cons, List.map_append, mapPlusChar_pct b (h b (by simp)),
      ih (fun x hx => h x (by simp [hx]))]

theorem utf8Encode_snoc (u : PStr) (c : Nat) :
    utf8Encode (u ++ [c]) = utf8Encode u ++ utf8EncodeChar c := by
  unfold utf8Encode
  rw [List.flatMap_append]
  simp

theorem unquote_quote_run (s : PStr) (hs : ValidStr s = true) :
    ∀ (u : PStr), ValidStr u = true →
      unquoteAux ((quote_plus s).map (fun c => if c = 43 then 32 else c))
        (utf8Encode u) = u ++ s := by
  induction s with
  | nil =>
    intro u hu
    show unquoteAux [] (utf8Encode u) = u ++ []
    rw [unquoteAux_nil, utf8Encode_decode u hu, List.append_nil]
  | cons c s ih =>
    intro u hu
    rw [validStr_cons, Bool.and_eq_true] at hs
    rw [show quote_plus (c :: s) = quotePlusChar c ++ quote_plus s from
      List.flatMap_cons .., List.map_append]
    by_cases hsafe : isQuoteSafe c = true
    · have hc43 : c ≠ 43 := fun h => by subst h; exact absurd hsafe (by decide)
      have hc37 : c ≠ 37 := fun h => by subst h; exact absurd hsafe (by decide)
      rw [show quotePlusChar c = [c] from by unfold quotePlusChar; rw [if_pos hsafe]]
      rw [show (([c] : PStr).map fun x => if x = 43 then 32 else x) = [c] from by
        simp [hc43]]
      rw [List.singleton_append, unquoteAux_lit c _ _ hc37,
        utf8Encode_decode u hu]
      rw [show ([] : List Nat) = utf8Encode [] from rfl, ih hs.2 [] (by rfl)]
      rfl
    · by_cases hsp : c = 32
      · subst hsp
        rw [show quotePlusChar 32 = [43] from by
          unfold quotePlusChar; rw [if_neg hsafe, if_pos rfl]]
        rw [show (([43] : PStr).map fun x => if x = 43 then 32 else x) = [32] from
          by simp]
        rw [List.singleton_append, unquoteAux_lit 32 _ _ (by omega),
          utf8Encode_decode u hu]
        rw [show ([] : List Nat) = utf8Encode [] from rfl, ih hs.2 [] (by rfl)]
        rfl
      · have hlt := utf8EncodeChar_lt256 c hs.1
        rw [show quotePlusChar c = (utf8EncodeChar c).flatMap pctByte from by
          unfold quotePlusChar; rw [if_neg hsafe, if_neg hsp]]
        rw [mapPlus_pct_run _ hlt,
          unquoteAux_pct_run _ hlt _ (utf8Encode u),
          show utf8Encode u ++ utf8EncodeChar c = utf8Encode (u ++ [c]) from
            (utf8Encode_snoc u c).symm,
          ih hs.2 (u ++ [c]) (by rw [validStr_append, hu, Bool.true_and,
            show ValidStr [c] = ValidChar c from by simp [ValidStr], hs.1])]
        simp

theorem unquote_plus_quote_plus (s : PStr) (hs : ValidStr s = true) :
    unquote_plus (quote_plus s) = s := by
  unfold unquote_plus unquote
  rw [show ([] : List Nat) = utf8Encode [] from rfl,
    unquote_quote_run s hs [] (by rfl)]
  rfl

theorem quote_plus_no_sep (s : PStr) (hs : ValidStr s = true) :
    ∀ d ∈ quote_plus s, d ≠ 38 ∧ d ≠ 61 := by
  induction s with
  | nil => intro d hd; simp [quote_plus] at hd
  | cons c s ih =>
    rw [validStr_cons, Bool.and_eq_true] at hs
    intro d hd
    rw [show quote_plus (c :: s) = quotePlusChar c ++ quote_plus s from
      List.flatMap_cons ..] at hd
    rw [List.mem_append] at hd
    rcases hd with hd | hd
    · unfold quotePlusChar at hd
      split_ifs at hd with h1 h2
      · simp at hd
        subst hd
        have h38 : isQuoteSafe 38 = false := by decide
        have h61 : isQuoteSafe 61 = false := by decide
        constructor <;> intro h <;> subst h <;> simp_all
      · simp at hd
        omega
      · rw [List.mem_flatMap] at hd
        obtain ⟨b, hb, hdb⟩ := hd
        have hb256 := utf8EncodeChar_lt256 c hs.1 b hb
        show d ≠ 38 ∧ d ≠ 61
        have : d = 37 ∨ d = hexUpperDigit (b / 16) ∨ d = hexUpperDigit (b % 16) := by
          simp [pctByte] at hdb
          tauto
        rcases this with h | h | h <;> subst h <;>
          first
            | omega
            | (unfold hexUpperDigit; constructor <;> split <;> omega)
    · exact ih hs.2 d hd

theorem splitAll_no_sep (c : Nat) (s : PStr) (h : ∀ d ∈ s, d ≠ c) :
    splitAll c s = [s] := by
  induction s with
  | nil => rfl
  | cons x s ih =>
    show splitAll c (x :: s) = [x :: s]
    conv_lhs => unfold splitAll
    rw [if_neg (h x (by simp)), ih (fun d hd => h d (by simp [hd]))]

theorem splitAll_sep_cons (c : Nat) (p t : PStr) (h : ∀ d ∈ p, d ≠ c) :
    splitAll c (p ++ c :: t) = p :: splitAll c t := by
  induction p with
  | nil =>
    show splitAll c (c :: t) = [] :: splitAll c t
    conv_lhs => unfold splitAll
    rw [if_pos rfl]
  | cons x p ih =>
    show splitAll c (x :: (p ++ c :: t)) = (x :: p) :: splitAll c t
    conv_lhs => unfold splitAll
    rw [if_neg (h x (by simp)), ih (fun d hd => h d (by simp [hd]))]

theorem splitAll_intercalate (parts : List PStr) (hne : parts ≠ [])
    (h : ∀ p ∈ parts, ∀ d ∈ p, d ≠ 38) :
    splitAll 38 (List.intercalate [38] parts) = parts := by
  induction parts with
  | nil => exact absurd rfl hne
  | cons p parts ih =>
    match parts with
    | [] =>
      show splitAll 38 (List.intercalate [38] [p]) = [p]
      rw [show List.intercalate [38] [p] = p from by simp [List.intercalate]]
      exact splitAll_no_sep 38 p (h p (by simp))
    | q :: parts2 =>
      rw [show List.intercalate [38] (p :: q :: parts2) =
        p ++ 38 :: List.intercalate [38] (q :: parts2) from by
          simp [List.intercalate, List.intersperse]]
      rw [splitAll_sep_cons 38 p _ (h p (by simp)),
        ih (by simp) (fun r hr d hd => h r (by simp [hr]) d hd)]

theorem splitOnFirst_sep (k v : PStr) (h : ∀ d ∈ k, d ≠ 61) :
    splitOnFirst 61 (k ++ 61 :: v) = (k, some v) := by
  induction k with
  | nil =>
    show splitOnFirst 61 (61 :: v) = ([], some v)
    conv_lhs => unfold splitOnFirst
    rw [if_pos rfl]
  | cons x k ih =>
    show splitOnFirst 61 (x :: (k ++ 61 :: v)) = (x :: k, some v)
    conv_lhs => unfold splitOnFirst
    rw [if_neg (h x (by simp)), ih (fun d hd => h d (by simp [hd]))]

theorem enc_pair_eq (kv : PStr × PStr) :
    quote_plus kv.1 ++ [61] ++ quote_plus kv.2 =
      quote_plus kv.1 ++ 61 :: quote_plus kv.2 := by
  simp

theorem parse_qsl_urlencode (pairs : List (PStr × PStr))
    (h : ∀ kv ∈ pairs, ValidStr kv.1 = true ∧ ValidStr kv.2 = true)
    (hne : pairs ≠ []) :
    parse_qsl (urlencode pairs) =
      pairs.map (fun kv =>
        (unquote_plus (quote_plus kv.1), unquote_plus (quote_plus kv.2))) := by
  unfold parse_qsl urlencode
  rw [splitAll_intercalate _ (by simpa using hne)]
  · clear hne
    induction pairs with
    | nil => rfl
    | cons kv rest ih =>
      rw [List.map_cons, List.filterMap_cons, List.map_cons]
      have hk := h kv (by simp)
      rw [enc_pair_eq kv]
      rw [if_neg (by simp)]
      rw [splitOnFirst_sep _ _ (fun d hd => (quote_plus_no_sep kv.1 hk.1 d hd).2)]
      rw [ih (fun x hx => h x (by simp [hx]))]
  · intro p hp d hd
    rw [List.mem_map] at hp
    obtain ⟨kv, hkv, hpe⟩ := hp
    have hk := h kv hkv
    rw [← hpe, enc_pair_eq kv, List.mem_append, List.mem_cons] at hd
    rcases hd with hd | hd | hd
    · exact (quote_plus_no_sep kv.1 hk.1 d hd).1
    · omega
    · exact (quote_plus_no_sep kv.2 hk.2 d hd).1

theorem validChar_of_validStr (s : PStr) (c : Nat) (hs : ValidStr s = true)
    (hc : c ∈ s) : ValidChar c = true := by
  rw [ValidStr, List.all_eq_true] at hs
  exact hs c hc

theorem validStr_tail (c : Nat) (l : PStr) (h : ValidStr (c :: l) = true) :
    ValidStr l = true := by
  rw [validStr_cons, Bool.and_eq_true] at h
  exact h.2

theorem unquoteAux_hex_step (a b : Nat) (rest pend : List Nat)
    (hhex : isHexDigitChar a = true ∧ isHexDigitChar b = true) :
    unquoteAux (37 :: a :: b :: rest) pend =
      unquoteAux rest (pend ++ [hexDigitVal a * 16 + hexDigitVal b]) := by
  conv_lhs => unfold unquoteAux
  rw [if_pos hhex]

theorem unquoteAux_hex_fail (a b : Nat) (rest pend : List Nat)
    (hhex : ¬(isHexDigitChar a = true ∧ isHexDigitChar b = true)) :
    unquoteAux (37 :: a :: b :: rest) pend =
      utf8Decode pend ++ 37 :: unquoteAux (a :: b :: rest) [] := by
  conv_lhs => unfold unquoteAux
  rw [if_neg hhex]

theorem unquoteAux_valid (s : PStr) (pend : List Nat) (hs : ValidStr s = true) :
    ValidStr (unquoteAux s pend) = true := by
  induction s, pend using unquoteAux.induct with
  | case1 pend a b rest hhex ih =>
    rw [unquoteAux_hex_step a b rest pend hhex]
    exact ih (validStr_tail _ _ (validStr_tail _ _ (validStr_tail _ _ hs)))
  | case2 pend a b rest hhex ih =>
    rw [unquoteAux_hex_fail a b rest pend hhex]
    rw [validStr_append, Bool.and_eq_true, validStr_cons, Bool.and_eq_true]
    exact ⟨utf8Decode_valid pend,
      by rw [validChar_eq]; omega,
      ih (validStr_tail _ _ hs)⟩
  | case3 pend a =>
    show ValidStr (utf8Decode pend ++ [37, a]) = true
    rw [validStr_append, Bool.and_eq_true]
    refine ⟨utf8Decode_valid pend, ?_⟩
    rw [validStr_cons, Bool.and_eq_true]
    exact ⟨by rw [validChar_eq]; omega,
      by simpa [ValidStr] using validChar_of_validStr _ a hs (by simp)⟩
  | case4 pend =>
    show ValidStr (utf8Decode pend ++ [37]) = true
    rw [validStr_append, Bool.and_eq_true]
    exact ⟨utf8Decode_valid pend, by decide⟩
  | case5 pend c rest h1 h2 h3 ih =>
    have hc : c ≠ 37 := by
      intro h
      rcases rest with _ | ⟨a, _ | ⟨b, r⟩⟩
      · exact h3 h rfl
      · exact h2 _ h rfl
      · exact h1 _ _ _ h rfl
    rw [unquoteAux_lit c rest pend hc]
    rw [validStr_append, Bool.and_eq_true, validStr_cons, Bool.and_eq_true]
    exact ⟨utf8Decode_valid pend,
      validChar_of_validStr _ c hs (by simp),
      ih (validStr_tail _ _ hs)⟩
  | case6 pend =>
    rw [unquoteAux_nil]
    exact utf8Decode_valid pend

theorem unquote_plus_valid (s : PStr) (hs : ValidStr s = true) :
    ValidStr (unquote_plus s) = true := by
  unfold unquote_plus unquote
  refine unquoteAux_valid _ [] ?_
  rw [ValidStr, List.all_eq_true]
  intro c hc
  rw [List.mem_map] at hc
  obtain ⟨d, hd, hdc⟩ := hc
  by_cases h43 : d = 43
  · rw [← hdc, h43]
    decide
  · rw [← hdc, if_neg h43]
    exact validChar_of_validStr s d hs hd

theorem splitAll_mem_subset (c : Nat) (s : PStr) :
    ∀ p ∈ splitAll c s, ∀ d ∈ p, d ∈ s := by
  induction s with
  | nil =>
    intro p hp d hd
    simp [splitAll] at hp
    subst hp
    simp at hd
  | cons x s ih =>
    intro p hp d hd
    rw [show splitAll c (x :: s) =
      (if x = c then [] :: splitAll c s
       else
         match splitAll c s with
         | [] => [[x]]
         | p :: ps => (x :: p) :: ps) from rfl] at hp
    split_ifs at hp with hx
    · rcases List.mem_cons.mp hp with hp | hp
      · subst hp; simp at hd
      · exact List.mem_cons_of_mem x (ih p hp d hd)
    · rcases he : splitAll c s with _ | ⟨p0, ps⟩
      · rw [he] at hp
        simp at hp
        subst hp
        simp at hd
        simp [hd]
      · rw [he] at hp
        rcases List.mem_cons.mp hp with hp | hp
        · subst hp
          rcases List.mem_cons.mp hd with hd | hd
          · simp [hd]
          · exact List.mem_cons_of_mem x (ih p0 (by rw [he]; simp) d hd)
        · exact List.mem_cons_of_mem x (ih p (by rw [he]; simp [hp]) d hd)

theorem splitOnFirst_fst_subset (c : Nat) (s : PStr) :
    ∀ d ∈ (splitOnFirst c s).1, d ∈ s := by
  induction s with
  | nil => intro d hd; simp [splitOnFirst] at hd
  | cons x s ih =>
    intro d hd
    rw [show splitOnFirst c (x :: s) =
      (if x = c then ([], some s)
       else ((x :: (splitOnFirst c s).1), (splitOnFirst c s).2)) from by
        conv_lhs => unfold splitOnFirst] at hd
    split_ifs at hd
    · simp at hd
    · rcases List.mem_cons.mp hd with hd | hd
      · simp [hd]
      · exact List.mem_cons_of_mem x (ih d hd)

theorem splitOnFirst_snd_subset (c : Nat) (s : PStr) (v : PStr)
    (hv : (splitOnFirst c s).2 = some v) : ∀ d ∈ v, d ∈ s := by
  induction s generalizing v with
  | nil => simp [splitOnFirst] at hv
  | cons x s ih =>
    rw [show splitOnFirst c (x :: s) =
      (if x = c then ([], some s)
       else ((x :: (splitOnFirst c s).1), (splitOnFirst c s).2)) from by
        conv_lhs => unfold splitOnFirst] at hv
    split_ifs at hv
    · simp at hv
      subst hv
      intro d hd
      simp [hd]
    · simp at hv
      intro d hd
      exact List.mem_cons_of_mem x (ih v hv d hd)

theorem validStr_of_subset (s t : PStr) (hs : ValidStr s = true)
    (h : ∀ d ∈ t, d ∈ s) : ValidStr t = true := by
  rw [ValidStr, List.all_eq_true]
  exact fun d hd => validChar_of_validStr s d hs (h d hd)

theorem parse_qsl_valid (q : PStr) (hq : ValidStr q = true) :
    ∀ kv ∈ parse_qsl q, ValidStr kv.1 = true ∧ ValidStr kv.2 = true := by
  intro kv hkv
  unfold parse_qsl at hkv
  rw [List.mem_filterMap] at hkv
  obtain ⟨nv, hnv, hf⟩ := hkv
  have hnvv : ValidStr nv = true :=
    validStr_of_subset q nv hq (splitAll_mem_subset 38 q nv hnv)
  split_ifs at hf
  rcases hsp : (splitOnFirst 61 nv).2 with _ | v
  · rw [show splitOnFirst 61 nv = ((splitOnFirst 61 nv).1, none) from by
      rw [← hsp]] at hf
    simp at hf
    rw [← hf]
    refine ⟨unquote_plus_valid _ (validStr_of_subset nv _ hnvv
      (splitOnFirst_fst_subset 61 nv)), by rfl⟩
  · rw [show splitOnFirst 61 nv = ((splitOnFirst 61 nv).1, some v) from by
      rw [← hsp]] at hf
    simp at hf
    rw [← hf]
    exact ⟨unquote_plus_valid _ (validStr_of_subset nv _ hnvv
        (splitOnFirst_fst_subset 61 nv)),
      unquote_plus_valid _ (validStr_of_subset nv _ hnvv
        (splitOnFirst_snd_subset 61 nv v hsp))⟩

theorem urlencode_nil : urlencode [] = [] := rfl

theorem intercalate38_head (x : List Nat) (xs : List (List Nat)) :
    ∃ t, List.intercalate [38] (x :: xs) = x ++ t := by
  match xs with
  | [] => exact ⟨[], by simp [List.intercalate]⟩
  | y :: ys =>
    exact ⟨[38] ++ List.intercalate [38] (y :: ys), by
      simp [List.intercalate, List.intersperse]⟩

theorem urlencode_ne_nil (pairs : List (PStr × PStr)) (h : pairs ≠ []) :
    urlencode pairs ≠ [] := by
  match pairs with
  | [] => exact absurd rfl h
  | kv :: rest =>
    unfold urlencode
    rw [List.map_cons]
    obtain ⟨t, ht⟩ := intercalate38_head
      (quote_plus kv.1 ++ [61] ++ quote_plus kv.2)
      (rest.map fun p => quote_plus p.1 ++ [61] ++ quote_plus p.2)
    rw [ht]
    simp

theorem map_roundtrip_eq (l : List (PStr × PStr))
    (hl : ∀ kv ∈ l, ValidStr kv.1 = true ∧ ValidStr kv.2 = true) :
    l.map (fun kv =>
      (unquote_plus (quote_plus kv.1), unquote_plus (quote_plus kv.2))) = l := by
  induction l with
  | nil => rfl
  | cons kv rest ih =>
    rw [List.map_cons, ih (fun x hx => hl x (by simp [hx]))]
    congr 1
    exact Prod.ext (unquote_plus_quote_plus _ (hl kv (by simp)).1)
      (unquote_plus_quote_plus _ (hl kv (by simp)).2)

theorem strip_tracking_query_idem (q : PStr) (hq : ValidStr q = true) :
    strip_tracking_query (strip_tracking_query q) = strip_tracking_query q := by
  by_cases h0 : q = []
  · subst h0
    rfl
  · rw [show strip_tracking_query q =
      urlencode ((parse_qsl q).filter (fun kv => !isTrackingKey kv.1)) from by
        unfold strip_tracking_query; rw [if_neg h0]]
    by_cases hk : (parse_qsl q).filter (fun kv => !isTrackingKey kv.1) = []
    · rw [hk]
      rfl
    · have hkv : ∀ kv ∈ (parse_qsl q).filter (fun kv => !isTrackingKey kv.1),
          ValidStr kv.1 = true ∧ ValidStr kv.2 = true :=
        fun kv hkvm => parse_qsl_valid q hq kv (List.mem_of_mem_filter hkvm)
      rw [show strip_tracking_query
          (urlencode ((parse_qsl q).filter (fun kv => !isTrackingKey kv.1))) =
        urlencode ((parse_qsl (urlencode
            ((parse_qsl q).filter (fun kv => !isTrackingKey kv.1)))).filter
          (fun kv => !isTrackingKey kv.1)) from by
          unfold strip_tracking_query; rw [if_neg (urlencode_ne_nil _ hk)]]
      rw [parse_qsl_urlencode _ hkv hk, map_roundtrip_eq _ hkv]
      congr 1
      apply List.filter_eq_self.mpr
      intro kv hkvm
      exact (List.mem_filter.mp hkvm).2

theorem claimPath_idem (p : PStr) : claimPath (claimPath p) = claimPath p := by
  have h := claimPath_head p
  rw [show claimPath (claimPath p) =
    (if (if claimPath p = [] then [47] else claimPath p).headD 0 = 47 then
      (if claimPath p = [] then [47] else claimPath p)
     else 47 :: (if claimPath p = [] then [47] else claimPath p)) from rfl]
  rw [if_neg h.1, if_pos h.2]

theorem keptPort_idem (scheme : PStr) (port : Option Nat) :
    keptPort scheme (keptPort scheme port) = keptPort scheme port := by
  cases port with
  | none => rfl
  | some p =>
    by_cases hc : p ≠ 0 ∧ defaultPortOf scheme ≠ some p
    · rw [show keptPort scheme (some p) = some p from by
        unfold keptPort; dsimp only; rw [if_pos hc]]
      unfold keptPort
      dsimp only
      rw [if_pos hc]
    · rw [show keptPort scheme (some p) = none from by
        unfold keptPort; dsimp only; rw [if_neg hc]]
      rfl

/-- **C5** is false as stated: normalization is not idempotent.  A fragment
cut can leave trailing whitespace in the path (raw
`https://e.com/x #f` normalizes to `https://e.com/x ` with a trailing
space), and the second normalization strips that whitespace first, producing
the different URL `https://e.com/x` — in both the note-creation and the
feed-collection normalizer. -/
theorem C5_idempotence_counterexample :
    note_normalize_source_url [] [] (pstr "https://e.com/x #f") =
      .ok (pstr "https://e.com/x #f", pstr "https://e.com/x ", pstr "e.com") ∧
    note_normalize_source_url [] [] (pstr "https://e.com/x ") =
      .ok (pstr "https://e.com/x", pstr "https://e.com/x", pstr "e.com") ∧
    agg_normalize_source_url (pstr "https://e.com/x #f") =
      .ok (pstr "https://e.com/x #f", pstr "https://e.com/x ", pstr "e.com") ∧
    agg_normalize_source_url (pstr "https://e.com/x ") =
      .ok (pstr "https://e.com/x", pstr "https://e.com/x", pstr "e.com") ∧
    pstr "https://e.com/x" ≠ pstr "https://e.com/x " :=
  ⟨rfl, rfl, rfl, rfl, by decide⟩

/-- **C5** (amended).  Normalization is idempotent at the component level
and on the canonical outputs of each host-specific branch, though not for
raw URLs whose normalized form still carries strippable whitespace:
(1) stripping tracking keys from a query of valid characters is idempotent
(the `parse_qsl`/`urlencode` round trip restores the kept pairs);
(2) the path defaulting, (3) the port dropping and (4) ASCII lower-casing
are idempotent; and re-normalizing the canonical output is the identity on
representative URLs of the aggregation generic branch (percent-encoded
query, non-default port) and of the note WeChat `/s/`-path, WeChat
`/s?__biz` and YouTube branches. -/
theorem C5_idempotence_amended :
    (∀ q : PStr, ValidStr q = true →
      strip_tracking_query (strip_tracking_query q) = strip_tracking_query q) ∧
    (∀ p : PStr, claimPath (claimPath p) = claimPath p) ∧
    (∀ (scheme : PStr) (port : Option Nat),
      keptPort scheme (keptPort scheme port) = keptPort scheme port) ∧
    (∀ s : PStr, pyLower (pyLower s) = pyLower s) ∧
    (agg_normalize_source_url
        (pstr "https://Example.com:8443/post?a=1&b=%E4%B8%AD+c&utm_source=x&fbclid=y") =
      .ok (pstr "https://Example.com:8443/post?a=1&b=%E4%B8%AD+c&utm_source=x&fbclid=y",
        pstr "https://example.com:8443/post?a=1&b=%E4%B8%AD+c",
        pstr "example.com") ∧
     agg_normalize_source_url
        (pstr "https://example.com:8443/post?a=1&b=%E4%B8%AD+c") =
      .ok (pstr "https://example.com:8443/post?a=1&b=%E4%B8%AD+c",
        pstr "https://example.com:8443/post?a=1&b=%E4%B8%AD+c",
        pstr "example.com")) ∧
    (note_normalize_source_url [] []
        (pstr "https://mp.weixin.qq.com/s/AbCd?from=timeline") =
      .ok (pstr "https://mp.weixin.qq.com/s/AbCd?from=timeline",
        pstr "https://mp.weixin.qq.com/s/AbCd", pstr "mp.weixin.qq.com") ∧
     note_normalize_source_url [] [] (pstr "https://mp.weixin.qq.com/s/AbCd") =
      .ok (pstr "https://mp.weixin.qq.com/s/AbCd",
        pstr "https://mp.weixin.qq.com/s/AbCd", pstr "mp.weixin.qq.com")) ∧
    (note_normalize_source_url [] []
        (pstr "https://mp.weixin.qq.com/s?__biz=MzA3&mid=10&idx=2&sn=abc&chksm=junk") =
      .ok (pstr "https://mp.weixin.qq.com/s?__biz=MzA3&mid=10&idx=2&sn=abc&chksm=junk",
        pstr "https://mp.weixin.qq.com/s?__biz=MzA3&mid=10&idx=2&sn=abc",
        pstr "mp.weixin.qq.com") ∧
     note_normalize_source_url [] []
        (pstr "https://mp.weixin.qq.com/s?__biz=MzA3&mid=10&idx=2&sn=abc") =
      .ok (pstr "https://mp.weixin.qq.com/s?__biz=MzA3&mid=10&idx=2&sn=abc",
        pstr "https://mp.weixin.qq.com/s?__biz=MzA3&mid=10&idx=2&sn=abc",
        pstr "mp.weixin.qq.com")) ∧
    (note_normalize_source_url [] [] (pstr "https://youtu.be/dQw4w9WgXcQ?t=10") =
      .ok (pstr "https://youtu.be/dQw4w9WgXcQ?t=10",
        pstr "https://www.youtube.com/watch?v=dQw4w9WgXcQ", pstr "youtube.com") ∧
     note_normalize_source_url [] []
        (pstr "https://www.youtube.com/watch?v=dQw4w9WgXcQ") =
      .ok (pstr "https://www.youtube.com/watch?v=dQw4w9WgXcQ",
        pstr "https://www.youtube.com/watch?v=dQw4w9WgXcQ", pstr "youtube.com")) :=
  ⟨strip_tracking_query_idem, claimPath_idem, keptPort_idem, pyLower_idem,
   ⟨rfl, rfl⟩, ⟨rfl, rfl⟩, ⟨rfl, rfl⟩, ⟨rfl, rfl⟩⟩

/-- Instantiation of the amended C5 theorem at a concrete query string. -/
theorem C5_idempotence_amended_witness :
    ValidStr (pstr "a=1&b=%E4%B8%AD+c&utm_source=x") = true ∧
    strip_tracking_query
        (strip_tracking_query (pstr "a=1&b=%E4%B8%AD+c&utm_source=x")) =
      strip_tracking_query (pstr "a=1&b=%E4%B8%AD+c&utm_source=x") :=
  ⟨by decide,
   C5_idempotence_amended.1 (pstr "a=1&b=%E4%B8%AD+c&utm_source=x") (by decide)⟩
